import Mathlib

/-!
Verification of the lib-plugin-manifest crate against its specification.

The Rust source is shallowly embedded: each struct becomes a Lean structure,
HashMaps become association lists, HashSets become `Finset String`, fallible
functions return `Except ManifestError`.  TOML text is modelled by its parsed
value tree (`Toml`); file paths are segment lists innermost-first (so the
path /a/b/c is `["c", "b", "a"]` and taking the parent is `List.tail`).
-/

set_option maxHeartbeats 1000000

/-- Embedding of `ManifestError` (src/error.rs).  Error payloads that are
foreign types in Rust (`std::io::Error`, `toml::de::Error`) are modelled by
their message strings. -/
inductive ManifestError where
  | Io : String → ManifestError
  | TomlParse : String → ManifestError
  | InvalidFormat : String → ManifestError
  | MissingField : String → ManifestError
  | InvalidVersion : String → ManifestError
  | CircularDependency : String → ManifestError
deriving DecidableEq, Repr

/-- Model of `toml::Value` trees (tables and arrays of tables).  Floats and
datetimes are never produced by the manifest schema and are omitted. -/
inductive Toml where
  | str : String → Toml
  | int : Int → Toml
  | bool : Bool → Toml
  | arr : List Toml → Toml
  | table : List (String × Toml) → Toml

/-- Key lookup in a TOML table (keys are unique in parsed TOML documents). -/
def lookupT : List (String × Toml) → String → Option Toml
  | [], _ => none
  | (k, v) :: rest, key => if k = key then some v else lookupT rest key

/-- `CliConfig` (src/plugin.rs). -/
structure CliConfig where
  command : String
  description : String
  aliases : List String
  dynamic_completions : Bool
deriving DecidableEq

/-- `PluginMeta` (src/plugin.rs). -/
structure PluginMeta where
  id : String
  name : String
  version : String
  plugin_type : String
  author : String
  description : String
  license : Option String
  homepage : Option String
deriving DecidableEq

/-- `CompatibilityInfo` (src/plugin.rs); `api_version : u32` is modelled as `Nat`. -/
structure CompatibilityInfo where
  api_version : Nat
  min_host_version : Option String
  max_host_version : Option String
  platforms : List String
  depends_on : List String
deriving DecidableEq

/-- `default_api_version` (src/plugin.rs). -/
def default_api_version : Nat := 2

/-- The `Default` impl of `CompatibilityInfo`. -/
def defaultCompatibilityInfo : CompatibilityInfo :=
  ⟨default_api_version, none, none, [], []⟩

/-- `BinaryInfo` (src/plugin.rs); the checksum `HashMap` is an association list. -/
structure BinaryInfo where
  name : String
  checksums : List (String × String)
deriving DecidableEq

/-- `default_binary_name` (src/plugin.rs). -/
def default_binary_name : String := "plugin"

/-- The `Default` impl of `BinaryInfo`. -/
def defaultBinaryInfo : BinaryInfo := ⟨default_binary_name, []⟩

/-- `SignatureInfo` (src/plugin.rs). -/
structure SignatureInfo where
  public_key : String
  signature_file : String
deriving DecidableEq

/-- `ConfigInfo` (src/plugin.rs); `defaults : HashMap<String, toml::Value>`
is an association list of TOML values. -/
structure ConfigInfo where
  defaults : List (String × Toml)

/-- The `Default` impl of `ConfigInfo`. -/
def defaultConfigInfo : ConfigInfo := ⟨[]⟩

/-- `ServiceDeclaration` (src/plugin.rs). -/
structure ServiceDeclaration where
  id : String
  version : String
  description : String
deriving DecidableEq

/-- `ServiceRequirement` (src/plugin.rs). -/
structure ServiceRequirement where
  id : String
  min_version : Option String
  optional : Bool
deriving DecidableEq

/-- `CapabilityDeclaration` (src/plugin.rs). -/
structure CapabilityDeclaration where
  protocol : String
  version : String
  description : String
deriving DecidableEq

/-- `TagsInfo` (src/plugin.rs). -/
structure TagsInfo where
  categories : List String
  platforms : List String
deriving DecidableEq

/-- `HiveInfo` (src/plugin.rs). -/
structure HiveInfo where
  category : String
  name : String
deriving DecidableEq

/-- `TranslationInfo` (src/plugin.rs). -/
structure TranslationInfo where
  translates : String
  language : String
  language_name : String
  -- the source field is called `namespace`, a reserved word in Lean
  nameSpace : String
deriving DecidableEq

/-- `LanguageInfo` (src/plugin.rs). -/
structure LanguageInfo where
  id : String
  extensions : List String
deriving DecidableEq

/-- `RequirementsInfo` (src/plugin.rs). -/
structure RequirementsInfo where
  os : Option String
  arch : Option String
  notes : Option String
deriving DecidableEq

/-- `PluginManifest` (src/plugin.rs), the aggregate root for a single plugin. -/
structure PluginManifest where
  plugin : PluginMeta
  compatibility : CompatibilityInfo
  binary : BinaryInfo
  signature : Option SignatureInfo
  config : ConfigInfo
  provides : List ServiceDeclaration
  requires : List ServiceRequirement
  cli : Option CliConfig
  capabilities : List CapabilityDeclaration
  tags : Option TagsInfo
  hive : Option HiveInfo
  translation : Option TranslationInfo
  language : Option LanguageInfo
  requirements : Option RequirementsInfo

/-- `PackageMeta` (src/package.rs). -/
structure PackageMeta where
  id : String
  name : String
  version : String
  author : String
  description : String
  license : Option String
  homepage : Option String
deriving DecidableEq

/-- `PluginDef` (src/package.rs): one plugin entry inside a package. -/
structure PluginDef where
  id : String
  name : String
  plugin_type : String
  binary : String
  description : Option String
  depends_on : List String
  config : Option ConfigInfo
  provides : List ServiceDeclaration
  requires : List ServiceRequirement

/-- `PackageBinaryInfo` (src/package.rs). -/
structure PackageBinaryInfo where
  checksums : List (String × String)
deriving DecidableEq

/-- `PackageManifest` (src/package.rs), the aggregate root for packages. -/
structure PackageManifest where
  package : PackageMeta
  compatibility : CompatibilityInfo
  plugins : List PluginDef
  binary : PackageBinaryInfo
  signature : Option SignatureInfo

/-- `PackageManifest::expand_plugins` (src/package.rs, lines 52-103):
expand a package into one `PluginManifest` per `PluginDef`. -/
def PackageManifest.expand_plugins (self : PackageManifest) : List PluginManifest :=
  self.plugins.map fun plugin_def =>
    { plugin :=
        { id := plugin_def.id
          name := plugin_def.name
          version := self.package.version
          plugin_type := plugin_def.plugin_type
          author := self.package.author
          description := plugin_def.description.getD self.package.description
          license := self.package.license
          homepage := self.package.homepage }
      compatibility :=
        if plugin_def.depends_on ≠ [] then
          { self.compatibility with depends_on := plugin_def.depends_on }
        else
          self.compatibility
      binary := { name := plugin_def.binary, checksums := self.binary.checksums }
      signature := self.signature
      config := plugin_def.config.getD defaultConfigInfo
      provides := plugin_def.provides
      requires := plugin_def.requires
      cli := none
      capabilities := []
      tags := none
      hive := none
      translation := none
      language := none
      requirements := none }

/-- The `plugin_map` lookup of `install_order`: a `HashMap` built by
`collect` keeps the LAST definition for a duplicated id. -/
def lookupPlugin : List PluginDef → String → Option PluginDef
  | [], _ => none
  | p :: ps, id =>
    match lookupPlugin ps id with
    | some q => some q
    | none => if p.id = id then some p else none

/-- The mutable state threaded through `install_order`'s `visit`
(src/package.rs, lines 110-116): two `HashSet<String>` and the result vector. -/
structure VisitState where
  visited : Finset String
  inProgress : Finset String
  result : List PluginDef

/-- The recursive `visit` of `install_order` (src/package.rs, lines 118-146).
The Rust recursion is unbounded; here a fuel argument bounds the recursion
DEPTH (each dependency edge consumes one unit; siblings share the budget),
and `install_order` supplies fuel that provably never runs out. -/
def visit (plugins : List PluginDef) : Nat → String → VisitState → Except ManifestError VisitState
  | 0, _, _ => .error (.InvalidFormat "recursion fuel exhausted")
  | fuel + 1, plugin_id, st =>
    if plugin_id ∈ st.visited then .ok st
    else if plugin_id ∈ st.inProgress then .error (.CircularDependency plugin_id)
    else
      let st1 : VisitState := ⟨st.visited, insert plugin_id st.inProgress, st.result⟩
      match lookupPlugin plugins plugin_id with
      | none => .ok st1
      | some p =>
        match p.depends_on.foldlM (fun s d => visit plugins fuel d s) st1 with
        | .error e => .error e
        | .ok st2 =>
          .ok ⟨insert plugin_id st2.visited, st2.inProgress.erase plugin_id,
               st2.result ++ [p]⟩

/-- The `for dep in &plugin.depends_on { visit(dep, ...)? }` loop. -/
def visitDeps (plugins : List PluginDef) (fuel : Nat) (deps : List String)
    (st : VisitState) : Except ManifestError VisitState :=
  deps.foldlM (fun s d => visit plugins fuel d s) st

/-- The top-level `for plugin in &self.plugins` loop of `install_order`. -/
def visitAll (plugins : List PluginDef) (fuel : Nat) :
    List PluginDef → VisitState → Except ManifestError VisitState
  | [], st => .ok st
  | p :: ps, st =>
    match visit plugins fuel p.id st with
    | .error e => .error e
    | .ok st1 => visitAll plugins fuel ps st1

/-- Fuel that bounds the recursion depth of `visit`: one more than the number
of id occurrences in the package (every recursion step permanently claims a
fresh id, so the depth can never reach this). -/
def fuelFor (plugins : List PluginDef) : Nat :=
  (plugins.map (·.id) ++ plugins.flatMap (·.depends_on)).length + 1

/-- `PackageManifest::install_order` (src/package.rs, lines 109-159). -/
def PackageManifest.install_order (self : PackageManifest) :
    Except ManifestError (List PluginDef) :=
  match visitAll self.plugins (fuelFor self.plugins) self.plugins ⟨∅, ∅, []⟩ with
  | .ok st => .ok st.result
  | .error e => .error e

/-! ### Model of the serde-derived TOML deserializer for `PluginManifest`

`PluginManifest::from_toml` is `toml::from_str(content).map_err(ManifestError::TomlParse)`.
The text-to-tree stage of the `toml` crate is abstracted away: the input is
the parsed value tree, and `parseManifest` models the serde-derived
`Deserialize` impl over that tree.  All deserialization failures are plain
diagnostic strings (modelling `toml::de::Error`), which `from_toml` wraps in
`ManifestError::TomlParse` exactly as the source does. -/

/-- Error propagation of the `?` operator during deserialization. -/
def pbind (x : Except String α) (f : α → Except String β) : Except String β :=
  match x with
  | .error e => .error e
  | .ok a => f a

/-- A mandatory string field (no `#[serde(default)]`). -/
def reqStr (t : List (String × Toml)) (field : String) : Except String String :=
  match lookupT t field with
  | some (.str s) => .ok s
  | some _ => .error ("invalid type for field " ++ field)
  | none => .error ("missing field " ++ field)

/-- An `Option<String>` field with `#[serde(default)]`. -/
def optStr (t : List (String × Toml)) (field : String) : Except String (Option String) :=
  match lookupT t field with
  | some (.str s) => .ok (some s)
  | some _ => .error ("invalid type for field " ++ field)
  | none => .ok none

/-- A defaulted `String` field. -/
def strOr (t : List (String × Toml)) (field : String) (dflt : String) : Except String String :=
  match lookupT t field with
  | some (.str s) => .ok s
  | some _ => .error ("invalid type for field " ++ field)
  | none => .ok dflt

/-- A defaulted `u32` field (negative integers are a serde range error). -/
def natOr (t : List (String × Toml)) (field : String) (dflt : Nat) : Except String Nat :=
  match lookupT t field with
  | some (.int n) => if n < 0 then .error ("invalid value for field " ++ field) else .ok n.toNat
  | some _ => .error ("invalid type for field " ++ field)
  | none => .ok dflt

/-- A defaulted `bool` field. -/
def boolOr (t : List (String × Toml)) (field : String) (dflt : Bool) : Except String Bool :=
  match lookupT t field with
  | some (.bool b) => .ok b
  | some _ => .error ("invalid type for field " ++ field)
  | none => .ok dflt

/-- Elementwise string extraction for a `Vec<String>`. -/
def asStrList : List Toml → Except String (List String)
  | [] => .ok []
  | .str s :: rest => pbind (asStrList rest) fun ss => .ok (s :: ss)
  | _ :: _ => .error "expected string array element"

/-- A defaulted `Vec<String>` field. -/
def strListOr (t : List (String × Toml)) (field : String) : Except String (List String) :=
  match lookupT t field with
  | some (.arr xs) => asStrList xs
  | some _ => .error ("invalid type for field " ++ field)
  | none => .ok []

/-- A mandatory `Vec<String>` field (used by `LanguageInfo.extensions`). -/
def reqStrList (t : List (String × Toml)) (field : String) : Except String (List String) :=
  match lookupT t field with
  | some (.arr xs) => asStrList xs
  | some _ => .error ("invalid type for field " ++ field)
  | none => .error ("missing field " ++ field)

/-- A `HashMap<String, String>` table field with `#[serde(default)]`. -/
def strPairs : List (String × Toml) → Except String (List (String × String))
  | [] => .ok []
  | (k, .str v) :: rest => pbind (strPairs rest) fun ps => .ok ((k, v) :: ps)
  | (_, _) :: _ => .error "expected string value in checksum table"

/-- A defaulted checksum-map field. -/
def strMapOr (t : List (String × Toml)) (field : String) :
    Except String (List (String × String)) :=
  match lookupT t field with
  | some (.table kvs) => strPairs kvs
  | some _ => .error ("invalid type for field " ++ field)
  | none => .ok []

/-- Deserialize `PluginMeta` from its table. -/
def parseMeta (t : List (String × Toml)) : Except String PluginMeta :=
  pbind (reqStr t "id") fun id =>
  pbind (reqStr t "name") fun name =>
  pbind (reqStr t "version") fun version =>
  pbind (reqStr t "type") fun plugin_type =>
  pbind (strOr t "author" "") fun author =>
  pbind (strOr t "description" "") fun description =>
  pbind (optStr t "license") fun license =>
  pbind (optStr t "homepage") fun homepage =>
  .ok ⟨id, name, version, plugin_type, author, description, license, homepage⟩

/-- Deserialize `CompatibilityInfo` from its table. -/
def parseCompat (t : List (String × Toml)) : Except String CompatibilityInfo :=
  pbind (natOr t "api_version" default_api_version) fun api_version =>
  pbind (optStr t "min_host_version") fun min_host =>
  pbind (optStr t "max_host_version") fun max_host =>
  pbind (strListOr t "platforms") fun platforms =>
  pbind (strListOr t "depends_on") fun depends_on =>
  .ok ⟨api_version, min_host, max_host, platforms, depends_on⟩

/-- Deserialize `BinaryInfo` from its table. -/
def parseBinary (t : List (String × Toml)) : Except String BinaryInfo :=
  pbind (strOr t "name" default_binary_name) fun name =>
  pbind (strMapOr t "checksums") fun checksums =>
  .ok ⟨name, checksums⟩

/-- Deserialize `SignatureInfo` from its table (both fields mandatory). -/
def parseSignature (t : List (String × Toml)) : Except String SignatureInfo :=
  pbind (reqStr t "public_key") fun pk =>
  pbind (reqStr t "signature_file") fun sf =>
  .ok ⟨pk, sf⟩

/-- Deserialize `ConfigInfo` from its table. -/
def parseConfig (t : List (String × Toml)) : Except String ConfigInfo :=
  match lookupT t "defaults" with
  | some (.table kvs) => .ok ⟨kvs⟩
  | some _ => .error "invalid type for field defaults"
  | none => .ok ⟨[]⟩

/-- Deserialize one `ServiceDeclaration`. -/
def parseService (v : Toml) : Except String ServiceDeclaration :=
  match v with
  | .table t =>
    pbind (reqStr t "id") fun id =>
    pbind (reqStr t "version") fun version =>
    pbind (strOr t "description" "") fun description =>
    .ok ⟨id, version, description⟩
  | _ => .error "expected table for provides entry"

/-- Deserialize one `ServiceRequirement`. -/
def parseServiceReq (v : Toml) : Except String ServiceRequirement :=
  match v with
  | .table t =>
    pbind (reqStr t "id") fun id =>
    pbind (optStr t "min_version") fun min_version =>
    pbind (boolOr t "optional" false) fun opt =>
    .ok ⟨id, min_version, opt⟩
  | _ => .error "expected table for requires entry"

/-- Deserialize one `CapabilityDeclaration`. -/
def parseCapability (v : Toml) : Except String CapabilityDeclaration :=
  match v with
  | .table t =>
    pbind (reqStr t "protocol") fun protocol =>
    pbind (reqStr t "version") fun version =>
    pbind (strOr t "description" "") fun description =>
    .ok ⟨protocol, version, description⟩
  | _ => .error "expected table for capabilities entry"

/-- Deserialize `CliConfig` from its table. -/
def parseCli (t : List (String × Toml)) : Except String CliConfig :=
  pbind (reqStr t "command") fun command =>
  pbind (reqStr t "description") fun description =>
  pbind (strListOr t "aliases") fun aliases =>
  pbind (boolOr t "dynamic_completions" false) fun dc =>
  .ok ⟨command, description, aliases, dc⟩

/-- Deserialize `TagsInfo` from its table. -/
def parseTags (t : List (String × Toml)) : Except String TagsInfo :=
  pbind (strListOr t "categories") fun categories =>
  pbind (strListOr t "platforms") fun platforms =>
  .ok ⟨categories, platforms⟩

/-- Deserialize `HiveInfo` from its table. -/
def parseHive (t : List (String × Toml)) : Except String HiveInfo :=
  pbind (reqStr t "category") fun category =>
  pbind (reqStr t "name") fun name =>
  .ok ⟨category, name⟩

/-- Deserialize `TranslationInfo` from its table (all four fields mandatory). -/
def parseTranslation (t : List (String × Toml)) : Except String TranslationInfo :=
  pbind (reqStr t "translates") fun translates =>
  pbind (reqStr t "language") fun language =>
  pbind (reqStr t "language_name") fun language_name =>
  pbind (reqStr t "namespace") fun ns =>
  .ok ⟨translates, language, language_name, ns⟩

/-- Deserialize `LanguageInfo` from its table. -/
def parseLanguage (t : List (String × Toml)) : Except String LanguageInfo :=
  pbind (reqStr t "id") fun id =>
  pbind (reqStrList t "extensions") fun extensions =>
  .ok ⟨id, extensions⟩

/-- Deserialize `RequirementsInfo` from its table. -/
def parseRequirements (t : List (String × Toml)) : Except String RequirementsInfo :=
  pbind (optStr t "os") fun os =>
  pbind (optStr t "arch") fun arch =>
  pbind (optStr t "notes") fun notes =>
  .ok ⟨os, arch, notes⟩

/-- An optional sub-table field: absent yields `none`, present must be a table. -/
def parseOptSection (t : List (String × Toml)) (field : String)
    (p : List (String × Toml) → Except String α) : Except String (Option α) :=
  match lookupT t field with
  | none => .ok none
  | some (.table kvs) => pbind (p kvs) fun a => .ok (some a)
  | some _ => .error ("invalid type for field " ++ field)

/-- A defaulted sub-table field: absent yields the default. -/
def parseDfltSection (t : List (String × Toml)) (field : String) (dflt : α)
    (p : List (String × Toml) → Except String α) : Except String α :=
  match lookupT t field with
  | none => .ok dflt
  | some (.table kvs) => p kvs
  | some _ => .error ("invalid type for field " ++ field)

/-- Elementwise deserialization of a sequence. -/
def parseEach (p : Toml → Except String α) : List Toml → Except String (List α)
  | [] => .ok []
  | x :: xs => pbind (p x) fun a => pbind (parseEach p xs) fun as => .ok (a :: as)

/-- A defaulted array-of-tables field, deserialized elementwise. -/
def parseArraySection (t : List (String × Toml)) (field : String)
    (p : Toml → Except String α) : Except String (List α) :=
  match lookupT t field with
  | none => .ok []
  | some (.arr xs) => parseEach p xs
  | some _ => .error ("invalid type for field " ++ field)

/-- The serde-derived `Deserialize` impl of `PluginManifest` over a TOML tree. -/
def parseManifest (t : Toml) : Except String PluginManifest :=
  match t with
  | .table kvs =>
    pbind (match lookupT kvs "plugin" with
           | some (.table pkvs) => .ok pkvs
           | some _ => .error "invalid type for field plugin"
           | none => .error "missing field plugin") fun pkvs =>
    pbind (parseMeta pkvs) fun plugin =>
    pbind (parseDfltSection kvs "compatibility" defaultCompatibilityInfo parseCompat)
      fun compatibility =>
    pbind (parseDfltSection kvs "binary" defaultBinaryInfo parseBinary) fun binary =>
    pbind (parseOptSection kvs "signature" parseSignature) fun signature =>
    pbind (parseDfltSection kvs "config" defaultConfigInfo parseConfig) fun config =>
    pbind (parseArraySection kvs "provides" parseService) fun provides =>
    pbind (parseArraySection kvs "requires" parseServiceReq) fun requires =>
    pbind (parseOptSection kvs "cli" parseCli) fun cli =>
    pbind (parseArraySection kvs "capabilities" parseCapability) fun capabilities =>
    pbind (parseOptSection kvs "tags" parseTags) fun tags =>
    pbind (parseOptSection kvs "hive" parseHive) fun hive =>
    pbind (parseOptSection kvs "translation" parseTranslation) fun translation =>
    pbind (parseOptSection kvs "language" parseLanguage) fun language =>
    pbind (parseOptSection kvs "requirements" parseRequirements) fun requirements =>
    .ok ⟨plugin, compatibility, binary, signature, config, provides, requires, cli,
         capabilities, tags, hive, translation, language, requirements⟩
  | _ => .error "expected document table"

/-- `PluginManifest::from_toml` (src/plugin.rs, lines 97-100):
`toml::from_str(content).map_err(ManifestError::TomlParse)`. -/
def PluginManifest.from_toml (t : Toml) : Except ManifestError PluginManifest :=
  match parseManifest t with
  | .ok m => .ok m
  | .error e => .error (.TomlParse e)

/-! ### Model of the serde-derived TOML serializer for `PluginManifest`

`PluginManifest::to_toml` is `toml::to_string_pretty(self)`, modelled at the
value-tree level.  Fields are emitted in declaration order; `Option` fields
that are `None` are omitted (TOML has no null); everything else, including
defaulted values and empty collections, is always emitted.  For this type the
serializer never fails, so the tree-level model is total. -/

/-- An optional table entry: omitted when `None`. -/
def optEntry (key : String) : Option Toml → List (String × Toml)
  | none => []
  | some v => [(key, v)]

/-- The table body serialized from `PluginMeta`. -/
def metaTable (m : PluginMeta) : List (String × Toml) :=
  [("id", .str m.id), ("name", .str m.name), ("version", .str m.version),
   ("type", .str m.plugin_type), ("author", .str m.author),
   ("description", .str m.description)] ++
  optEntry "license" (m.license.map .str) ++
  optEntry "homepage" (m.homepage.map .str)

/-- Serialize `PluginMeta`. -/
def metaToToml (m : PluginMeta) : Toml := .table (metaTable m)

/-- The table body serialized from `CompatibilityInfo`. -/
def compatTable (c : CompatibilityInfo) : List (String × Toml) :=
  [("api_version", .int c.api_version)] ++
  optEntry "min_host_version" (c.min_host_version.map .str) ++
  optEntry "max_host_version" (c.max_host_version.map .str) ++
  [("platforms", .arr (c.platforms.map .str)),
   ("depends_on", .arr (c.depends_on.map .str))]

/-- Serialize `CompatibilityInfo`. -/
def compatToToml (c : CompatibilityInfo) : Toml := .table (compatTable c)

/-- The table body serialized from `BinaryInfo`. -/
def binaryTable (b : BinaryInfo) : List (String × Toml) :=
  [("name", .str b.name),
   ("checksums", .table (b.checksums.map fun kv => (kv.1, .str kv.2)))]

/-- Serialize `BinaryInfo`. -/
def binaryToToml (b : BinaryInfo) : Toml := .table (binaryTable b)

/-- The table body serialized from `SignatureInfo`. -/
def signatureTable (s : SignatureInfo) : List (String × Toml) :=
  [("public_key", .str s.public_key), ("signature_file", .str s.signature_file)]

/-- Serialize `SignatureInfo`. -/
def signatureToToml (s : SignatureInfo) : Toml := .table (signatureTable s)

/-- The table body serialized from `ConfigInfo`. -/
def configTable (c : ConfigInfo) : List (String × Toml) :=
  [("defaults", .table c.defaults)]

/-- Serialize `ConfigInfo`. -/
def configToToml (c : ConfigInfo) : Toml := .table (configTable c)

/-- Serialize `ServiceDeclaration`. -/
def serviceToToml (s : ServiceDeclaration) : Toml :=
  .table [("id", .str s.id), ("version", .str s.version), ("description", .str s.description)]

/-- Serialize `ServiceRequirement`. -/
def serviceReqToToml (s : ServiceRequirement) : Toml :=
  .table ([("id", .str s.id)] ++
          optEntry "min_version" (s.min_version.map .str) ++
          [("optional", .bool s.optional)])

/-- Serialize `CapabilityDeclaration`. -/
def capabilityToToml (c : CapabilityDeclaration) : Toml :=
  .table [("protocol", .str c.protocol), ("version", .str c.version),
          ("description", .str c.description)]

/-- The table body serialized from `CliConfig`. -/
def cliTable (c : CliConfig) : List (String × Toml) :=
  [("command", .str c.command), ("description", .str c.description),
   ("aliases", .arr (c.aliases.map .str)),
   ("dynamic_completions", .bool c.dynamic_completions)]

/-- Serialize `CliConfig`. -/
def cliToToml (c : CliConfig) : Toml := .table (cliTable c)

/-- The table body serialized from `TagsInfo`. -/
def tagsTable (t : TagsInfo) : List (String × Toml) :=
  [("categories", .arr (t.categories.map .str)),
   ("platforms", .arr (t.platforms.map .str))]

/-- Serialize `TagsInfo`. -/
def tagsToToml (t : TagsInfo) : Toml := .table (tagsTable t)

/-- The table body serialized from `HiveInfo`. -/
def hiveTable (h : HiveInfo) : List (String × Toml) :=
  [("category", .str h.category), ("name", .str h.name)]

/-- Serialize `HiveInfo`. -/
def hiveToToml (h : HiveInfo) : Toml := .table (hiveTable h)

/-- The table body serialized from `TranslationInfo`. -/
def translationTable (t : TranslationInfo) : List (String × Toml) :=
  [("translates", .str t.translates), ("language", .str t.language),
   ("language_name", .str t.language_name), ("namespace", .str t.nameSpace)]

/-- Serialize `TranslationInfo`. -/
def translationToToml (t : TranslationInfo) : Toml := .table (translationTable t)

/-- The table body serialized from `LanguageInfo`. -/
def languageTable (l : LanguageInfo) : List (String × Toml) :=
  [("id", .str l.id), ("extensions", .arr (l.extensions.map .str))]

/-- Serialize `LanguageInfo`. -/
def languageToToml (l : LanguageInfo) : Toml := .table (languageTable l)

/-- The table body serialized from `RequirementsInfo`. -/
def requirementsTable (r : RequirementsInfo) : List (String × Toml) :=
  optEntry "os" (r.os.map .str) ++ optEntry "arch" (r.arch.map .str) ++
  optEntry "notes" (r.notes.map .str)

/-- Serialize `RequirementsInfo`. -/
def requirementsToToml (r : RequirementsInfo) : Toml := .table (requirementsTable r)

/-- The document table serialized from a whole `PluginManifest`. -/
def topTable (m : PluginManifest) : List (String × Toml) :=
  [("plugin", metaToToml m.plugin),
   ("compatibility", compatToToml m.compatibility),
   ("binary", binaryToToml m.binary)] ++
  optEntry "signature" (m.signature.map signatureToToml) ++
  [("config", configToToml m.config),
   ("provides", .arr (m.provides.map serviceToToml)),
   ("requires", .arr (m.requires.map serviceReqToToml))] ++
  optEntry "cli" (m.cli.map cliToToml) ++
  [("capabilities", .arr (m.capabilities.map capabilityToToml))] ++
  optEntry "tags" (m.tags.map tagsToToml) ++
  optEntry "hive" (m.hive.map hiveToToml) ++
  optEntry "translation" (m.translation.map translationToToml) ++
  optEntry "language" (m.language.map languageToToml) ++
  optEntry "requirements" (m.requirements.map requirementsToToml)

/-- `PluginManifest::to_toml` (src/plugin.rs, lines 360-367), at tree level. -/
def PluginManifest.to_toml (m : PluginManifest) : Toml := .table (topTable m)

/-! ### Model of `cargo_extract.rs` workspace version resolution

Filesystem paths are segment lists innermost-first (`/a/b/c` is
`["c", "b", "a"]`), so `Path::parent` is `List.tail` (and the root has no
parent).  The filesystem maps a path to `some (some doc)` when the file
exists and parses, `some none` when it exists but is not valid TOML, and
`none` when it does not exist. -/

abbrev FsPath := List String

abbrev FileSystem := List (FsPath × Option Toml)

/-- `Path::exists` plus `read_to_string` plus `toml::from_str`, combined. -/
def lookupFS : FileSystem → FsPath → Option (Option Toml)
  | [], _ => none
  | (q, c) :: rest, p => if q = p then some c else lookupFS rest p

/-- `doc.get("workspace").and_then(get "package").and_then(get "version").and_then(as_str)`. -/
def wsVersion (doc : Toml) : Option String :=
  match doc with
  | .table kvs =>
    match lookupT kvs "workspace" with
    | some (.table wkvs) =>
      match lookupT wkvs "package" with
      | some (.table pkvs) =>
        match lookupT pkvs "version" with
        | some (.str v) => some v
        | _ => none
      | _ => none
    | _ => none
  | _ => none

/-- The ancestor loop of `resolve_workspace_version` (src/cargo_extract.rs,
lines 129-151): step to the parent directory, look for its `Cargo.toml`,
and continue the walk when the file is absent, unparseable, or parses but
declares no `workspace.package.version`. -/
def walkAncestors (fs : FileSystem) : FsPath → Except ManifestError String
  | [] => .error (.InvalidFormat "Could not resolve workspace version")
  | _ :: dirParent =>
    match lookupFS fs ("Cargo.toml" :: dirParent) with
    | none => walkAncestors fs dirParent
    | some none => walkAncestors fs dirParent
    | some (some doc) =>
      match wsVersion doc with
      | some v => .ok v
      | none => walkAncestors fs dirParent

/-- `resolve_workspace_version` (src/cargo_extract.rs, lines 124-156). -/
def resolve_workspace_version (fs : FileSystem) (cargo_toml_path : FsPath) :
    Except ManifestError String :=
  match cargo_toml_path with
  | [] => .error (.InvalidFormat "no parent dir")
  | _ :: dir => walkAncestors fs dir

/-- `resolve_version` (src/cargo_extract.rs, lines 108-122). -/
def resolve_version (fs : FileSystem) (package : Toml) (cargo_toml_path : FsPath) :
    Except ManifestError String :=
  match package with
  | .table kvs =>
    match lookupT kvs "version" with
    | some (.str s) => .ok s
    | some (.table vt) =>
      match lookupT vt "workspace" with
      | some (.bool true) => resolve_workspace_version fs cargo_toml_path
      | _ => .error (.MissingField "package.version")
    | _ => .error (.MissingField "package.version")
  | _ => .error (.MissingField "package.version")

/-- Spec-style characterization used by the amended C7: the proper ancestor
directories of a directory, nearest first. -/
def properAncestors : FsPath → List FsPath
  | [] => []
  | _ :: p => p :: properAncestors p

/-- The workspace version a single directory's `Cargo.toml` offers, if any. -/
def wsVersionAt (fs : FileSystem) (dir : FsPath) : Option String :=
  match lookupFS fs ("Cargo.toml" :: dir) with
  | some (some doc) => wsVersion doc
  | _ => none

/-! ### Model of the unified facade (src/lib.rs)

`Manifest::from_toml` dispatches on raw-text substring markers before
invoking either parser, so the text is kept as a `String` here and the two
TOML parsers are abstract parameters (their tree-level models appear above;
the text-to-tree stage of the `toml` crate is not re-modelled). -/

/-- `Manifest` (src/lib.rs). -/
inductive Manifest where
  | Single : PluginManifest → Manifest
  | Package : PackageManifest → Manifest

/-- Whether `pat` occurs as a contiguous run at the head of `text`. -/
def leadsWith : List Char → List Char → Bool
  | [], _ => true
  | _ :: _, [] => false
  | a :: as, b :: bs => a == b && leadsWith as bs

/-- `str::contains` for string literals: `pat` occurs contiguously in `text`. -/
def containsSeq (pat : List Char) : List Char → Bool
  | [] => leadsWith pat []
  | c :: rest => leadsWith pat (c :: rest) || containsSeq pat rest

/-- `content.contains(marker)` on the raw manifest text. -/
def containsMarker (content marker : String) : Bool :=
  containsSeq marker.data content.data

/-- `Manifest::from_toml` (src/lib.rs, lines 61-72), with the two section
parsers (`PackageManifest::from_toml`, `PluginManifest::from_toml` applied to
raw text) taken as parameters. -/
def Manifest.from_toml (parsePackage : String → Except ManifestError PackageManifest)
    (parseSingle : String → Except ManifestError PluginManifest)
    (content : String) : Except ManifestError Manifest :=
  if containsMarker content "[package]" then
    match parsePackage content with
    | .ok p => .ok (.Package p)
    | .error e => .error e
  else if containsMarker content "[plugin]" then
    match parseSingle content with
    | .ok m => .ok (.Single m)
    | .error e => .error e
  else
    .error (.InvalidFormat "Manifest must contain either [plugin] or [package] section")

/-! ### Concrete fixtures used by witnesses and counterexamples -/

/-- A minimal `PluginDef` whose only interesting data is its id and
dependency list. -/
def simpleDef (id : String) (deps : List String) : PluginDef :=
  ⟨id, id, "extension", id, none, deps, none, [], []⟩

/-- A minimal package wrapping a plugin list. -/
def simplePkg (ps : List PluginDef) : PackageManifest :=
  ⟨⟨"vendor.pack", "Test Pack", "1.0.0", "", "", none, none⟩,
   defaultCompatibilityInfo, ps, ⟨[]⟩, none⟩

/-- The linear chain of the repository's `test_install_order`:
c depends on a and b, b depends on a. -/
def chainPkg : PackageManifest :=
  simplePkg [simpleDef "c" ["a", "b"], simpleDef "a" [], simpleDef "b" ["a"]]

/-- Two distinct plugins that form a dependency cycle. -/
def cyclePkg : PackageManifest :=
  simplePkg [simpleDef "a" ["b"], simpleDef "b" ["a"]]

/-- Two distinct, dependency-free-among-present-ids plugins that both
reference the same id `x` that is absent from the package. -/
def absentDupPkg : PackageManifest :=
  simplePkg [simpleDef "a" ["x"], simpleDef "b" ["x"]]

/-- Duplicate ids: the cycle a -> b -> a runs through the FIRST definition
of id `a`, but the id map keeps the last (dependency-free) one. -/
def dupIdPkg : PackageManifest :=
  simplePkg [simpleDef "a" ["b"], simpleDef "b" ["a"], simpleDef "a" []]

/-- Distinct ids, a genuine cycle b <-> c, plus a plugin that references the
absent id `x` twice. -/
def absentPlusCyclePkg : PackageManifest :=
  simplePkg [simpleDef "a" ["x", "x"], simpleDef "b" ["c"], simpleDef "c" ["b"]]

/-- A two-plugin package for the expansion claims: the first plugin overrides
`depends_on`, the second does not. -/
def expandPkg : PackageManifest :=
  ⟨⟨"vendor.pack", "Test Pack", "1.0.0", "Author", "Desc", none, none⟩,
   ⟨1, some "0.8.0", none, ["linux-x86_64"], ["shared.dep"]⟩,
   [simpleDef "vendor.plugin-a" ["vendor.plugin-b"], simpleDef "vendor.plugin-b" []],
   ⟨[("linux-x86_64", "sha256:abc")]⟩, none⟩

/-- A plugin document whose `[plugin]` table lacks `id`. -/
def docMissingId : Toml :=
  .table [("plugin", .table [("name", .str "Test"), ("version", .str "1.0.0"),
                             ("type", .str "extension")])]

/-- A minimal plugin document carrying exactly the four mandatory fields. -/
def minimalDoc : Toml :=
  .table [("plugin", .table [("id", .str "test.plugin"), ("name", .str "Test"),
                             ("version", .str "1.0.0"), ("type", .str "extension")])]

/-- A complete document except that its `[cli]` table lacks `command`. -/
def docEmptyCli : Toml :=
  .table [("plugin", .table [("id", .str "test.plugin"), ("name", .str "Test"),
                             ("version", .str "1.0.0"), ("type", .str "extension")]),
          ("cli", .table [])]

/-- An ancestor `Cargo.toml` that parses but declares no workspace version. -/
def docNoWs : Toml := .table [("package", .table [("name", .str "mid")])]

/-- An ancestor `Cargo.toml` declaring `workspace.package.version = "9.9.9"`. -/
def docWs : Toml :=
  .table [("workspace", .table [("package", .table [("version", .str "9.9.9")])])]

/-- Filesystem: /a/Cargo.toml declares the workspace version, while
/a/b/Cargo.toml exists but does not. -/
def fsSkip : FileSystem :=
  [(["Cargo.toml", "b", "a"], some docNoWs), (["Cargo.toml", "a"], some docWs)]

/-! ### Invariants and relations used to reason about `install_order` -/

/-- Every id occurring in a package's plugin list: declared ids plus every
id mentioned in a `depends_on` list.  The traversal of `install_order` only
ever touches ids from this finite universe. -/
def idUniverse (plugins : List PluginDef) : Finset String :=
  (plugins.map (·.id) ++ plugins.flatMap (·.depends_on)).toFinset

/-- Invariant maintained by the `visit` traversal: the visited set is
exactly the set of result ids, result ids are distinct, every result entry
is the id map's entry for its id, visited and in-progress ids are disjoint,
and every present dependency of a result entry occurs strictly earlier in
the result. -/
def ResultInv (plugins : List PluginDef) (st : VisitState) : Prop :=
  st.visited = (st.result.map (·.id)).toFinset ∧
  (st.result.map (·.id)).Nodup ∧
  (∀ q ∈ st.result, lookupPlugin plugins q.id = some q) ∧
  Disjoint st.visited st.inProgress ∧
  ∀ i (hi : i < st.result.length), ∀ d ∈ (st.result.get ⟨i, hi⟩).depends_on,
    d ∈ plugins.map (·.id) → d ∈ (st.result.take i).map (·.id)

/-- What one successful `visit` (or dependency loop) step guarantees about
the state transition. -/
def visitConcl (plugins : List PluginDef) (st st' : VisitState) : Prop :=
  ResultInv plugins st' ∧ st.visited ⊆ st'.visited ∧ st.inProgress ⊆ st'.inProgress ∧
  st.visited ∪ st.inProgress ⊆ st'.visited ∪ st'.inProgress ∧
  ∃ tail, st'.result = st.result ++ tail

/-- The dependency relation of the claims: `a`'s definition names `b` in its
`depends_on` and `b` is the id of some plugin of the package. -/
def presentEdge (plugins : List PluginDef) (a b : String) : Prop :=
  (∃ q ∈ plugins, q.id = a ∧ b ∈ q.depends_on) ∧ b ∈ plugins.map (·.id)

/-! ## Theorems -/

/-- C4: `expand_plugins` is total (it is a plain function into a list), it
returns exactly one `PluginManifest` per `PluginDef` in declaration order,
and for each of them the expanded `plugin.id` equals the `PluginDef`'s id,
`plugin.version` equals `package.version`, `cli` is `None`, `capabilities`
is empty, and `tags`, `hive`, `translation`, `language` and `requirements`
are all absent. -/
theorem expand_plugins_shape (pkg : PackageManifest) :
    pkg.expand_plugins.length = pkg.plugins.length ∧
    ∀ i (hd : i < pkg.plugins.length) (he : i < pkg.expand_plugins.length),
      (pkg.expand_plugins.get ⟨i, he⟩).plugin.id = (pkg.plugins.get ⟨i, hd⟩).id ∧
      (pkg.expand_plugins.get ⟨i, he⟩).plugin.version = pkg.package.version ∧
      (pkg.expand_plugins.get ⟨i, he⟩).cli = none ∧
      (pkg.expand_plugins.get ⟨i, he⟩).capabilities = [] ∧
      (pkg.expand_plugins.get ⟨i, he⟩).tags = none ∧
      (pkg.expand_plugins.get ⟨i, he⟩).hive = none ∧
      (pkg.expand_plugins.get ⟨i, he⟩).translation = none ∧
      (pkg.expand_plugins.get ⟨i, he⟩).language = none ∧
      (pkg.expand_plugins.get ⟨i, he⟩).requirements = none := by
  constructor
  · simp [PackageManifest.expand_plugins]
  · intro i hd he
    simp [PackageManifest.expand_plugins]

/-- Witness for C4 at the concrete two-plugin package. -/
theorem expand_plugins_shape_witness :
    0 < expandPkg.plugins.length ∧ 0 < expandPkg.expand_plugins.length ∧
    (expandPkg.expand_plugins.get ⟨0, by decide⟩).plugin.id = "vendor.plugin-a" ∧
    (expandPkg.expand_plugins.get ⟨0, by decide⟩).plugin.version = "1.0.0" := by
  refine ⟨by decide, by decide, ?_, ?_⟩
  · have h := (expand_plugins_shape expandPkg).2 0 (by decide) (by decide)
    exact h.1.trans rfl
  · exact ((expand_plugins_shape expandPkg).2 0 (by decide) (by decide)).2.1.trans rfl

/-- C9: for every package and every `PluginDef` in it, the expanded
manifest's `CompatibilityInfo` is the package-level shared value with
`depends_on` replaced by the `PluginDef`'s own list when that list is
non-empty, and is the package-level shared value unchanged (including its
`depends_on`) when the list is empty. -/
theorem expand_plugins_compatibility (pkg : PackageManifest) (i : Nat)
    (hd : i < pkg.plugins.length) (he : i < pkg.expand_plugins.length) :
    ((pkg.plugins.get ⟨i, hd⟩).depends_on ≠ [] →
      (pkg.expand_plugins.get ⟨i, he⟩).compatibility =
        { pkg.compatibility with depends_on := (pkg.plugins.get ⟨i, hd⟩).depends_on }) ∧
    ((pkg.plugins.get ⟨i, hd⟩).depends_on = [] →
      (pkg.expand_plugins.get ⟨i, he⟩).compatibility = pkg.compatibility) := by
  constructor
  · intro hne
    simp [PackageManifest.expand_plugins, hne]
    exact fun h => absurd h hne
  · intro heq
    simp [PackageManifest.expand_plugins, heq]
    exact fun h => absurd heq h

/-- Witness for C9 at the concrete two-plugin package (plugin 0 overrides
`depends_on`, plugin 1 inherits the shared value). -/
theorem expand_plugins_compatibility_witness :
    (expandPkg.expand_plugins.get ⟨0, by decide⟩).compatibility =
      { expandPkg.compatibility with depends_on := ["vendor.plugin-b"] } ∧
    (expandPkg.expand_plugins.get ⟨1, by decide⟩).compatibility = expandPkg.compatibility := by
  constructor
  · exact (expand_plugins_compatibility expandPkg 0 (by decide) (by decide)).1 (by decide)
  · exact (expand_plugins_compatibility expandPkg 1 (by decide) (by decide)).2 rfl

/-- C8: the unified facade detects the variant by the raw-text markers:
when the text contains `[package]` it parses as the package variant (even if
`[plugin]` also appears), otherwise when it contains `[plugin]` it parses as
the single variant, and when it contains neither it fails with
`InvalidFormat`. -/
theorem manifest_from_toml_dispatch
    (parsePackage : String → Except ManifestError PackageManifest)
    (parseSingle : String → Except ManifestError PluginManifest) (content : String) :
    (containsMarker content "[package]" = true →
      Manifest.from_toml parsePackage parseSingle content =
        match parsePackage content with
        | .ok p => .ok (.Package p)
        | .error e => .error e) ∧
    (containsMarker content "[package]" = false →
      containsMarker content "[plugin]" = true →
      Manifest.from_toml parsePackage parseSingle content =
        match parseSingle content with
        | .ok m => .ok (.Single m)
        | .error e => .error e) ∧
    (containsMarker content "[package]" = false →
      containsMarker content "[plugin]" = false →
      Manifest.from_toml parsePackage parseSingle content =
        .error (.InvalidFormat "Manifest must contain either [plugin] or [package] section")) := by
  refine ⟨fun h1 => ?_, fun h1 h2 => ?_, fun h1 h2 => ?_⟩ <;>
    simp [Manifest.from_toml, h1]
  · simp [h2]
  · simp [h2]

/-- Witness for C8: text with neither marker fails with `InvalidFormat`. -/
theorem manifest_from_toml_dispatch_witness :
    Manifest.from_toml (fun _ => .error (.InvalidFormat "unused"))
        (fun _ => .error (.InvalidFormat "unused")) "# just a comment" =
      .error (.InvalidFormat "Manifest must contain either [plugin] or [package] section") :=
  (manifest_from_toml_dispatch _ _ "# just a comment").2.2 (by decide) (by decide)

/-- Helper: the ancestor walk returns the version offered by the nearest
proper ancestor that offers one, and `InvalidFormat` when none does. -/
theorem walkAncestors_eq_findSome (fs : FileSystem) (dir : FsPath) :
    walkAncestors fs dir =
      match (properAncestors dir).findSome? (wsVersionAt fs) with
      | some v => .ok v
      | none => .error (.InvalidFormat "Could not resolve workspace version") := by
  induction dir with
  | nil => rfl
  | cons seg rest ih =>
    show walkAncestors fs (seg :: rest) = _
    rw [walkAncestors]
    simp only [properAncestors, List.findSome?]
    rw [show wsVersionAt fs rest = match lookupFS fs ("Cargo.toml" :: rest) with
          | some (some doc) => wsVersion doc
          | _ => none from rfl]
    cases h : lookupFS fs ("Cargo.toml" :: rest) with
    | none => simpa [h] using ih
    | some c =>
      cases c with
      | none => simpa [h] using ih
      | some doc =>
        cases hv : wsVersion doc with
        | none => simpa [h, hv] using ih
        | some v => simp [h, hv]

/-- C7 counterexample: /a/Cargo.toml declares `workspace.package.version =
"9.9.9"`, /a/b/Cargo.toml exists and parses but declares no workspace
version, and the manifest sits at /a/b/c/Cargo.toml.  The claim says the
walk must stop at /a/b and fail; the code walks past it and succeeds. -/
theorem workspace_walk_skips_versionless_counterexample :
    lookupFS fsSkip ["Cargo.toml", "b", "a"] = some (some docNoWs) ∧
    wsVersion docNoWs = none ∧
    resolve_workspace_version fsSkip ["Cargo.toml", "c", "b", "a"] = .ok "9.9.9" :=
  ⟨rfl, rfl, rfl⟩

/-- C7 (amended): when a manifest inherits its version from the workspace,
the resolver walks the proper ancestor directories of the manifest's
directory, nearest first; an ancestor whose `Cargo.toml` is missing,
unparseable, or parseable but without a `workspace.package.version` is
walked PAST (not a fatal stop), the first ancestor that declares the
version supplies the result, resolution fails with `InvalidFormat` when no
ancestor declares one, and a manifest path with no parent segment fails
with `InvalidFormat` immediately. -/
theorem resolve_workspace_version_characterization (fs : FileSystem) (path : FsPath) :
    resolve_workspace_version fs path =
      match path with
      | [] => .error (.InvalidFormat "no parent dir")
      | _ :: dir =>
        match (properAncestors dir).findSome? (wsVersionAt fs) with
        | some v => .ok v
        | none => .error (.InvalidFormat "Could not resolve workspace version") := by
  cases path with
  | nil => rfl
  | cons seg dir =>
    show walkAncestors fs dir = _
    exact walkAncestors_eq_findSome fs dir

/-! ### Round-trip infrastructure for the TOML model -/

theorem lookupT_nil (key : String) : lookupT [] key = none := rfl

theorem lookupT_cons_hit (k : String) (v : Toml) (rest : List (String × Toml)) :
    lookupT ((k, v) :: rest) k = some v := by
  simp [lookupT]

theorem lookupT_cons_skip {k key : String} (v : Toml) (rest : List (String × Toml))
    (h : k ≠ key) : lookupT ((k, v) :: rest) key = lookupT rest key := by
  simp [lookupT, h]

theorem lookupT_optEntry_skip {k key : String} (o : Option Toml)
    (rest : List (String × Toml)) (h : k ≠ key) :
    lookupT (optEntry k o ++ rest) key = lookupT rest key := by
  cases o <;> simp [optEntry, lookupT, h]

theorem lookupT_optEntry_hit (k : String) (o : Option Toml) (rest : List (String × Toml))
    (hrest : lookupT rest k = none) : lookupT (optEntry k o ++ rest) k = o := by
  cases o <;> simp [optEntry, lookupT, hrest]

theorem lookupT_optEntry_last (k : String) (o : Option Toml) :
    lookupT (optEntry k o) k = o := by
  cases o <;> simp [optEntry, lookupT]

theorem lookupT_optEntry_last_skip {k key : String} (o : Option Toml) (h : k ≠ key) :
    lookupT (optEntry k o) key = none := by
  cases o <;> simp [optEntry, lookupT, h]

theorem pbind_ok {x : Except String α} {f : α → Except String β} {b : β}
    (h : pbind x f = .ok b) : ∃ a, x = .ok a ∧ f a = .ok b := by
  cases x with
  | ok a => exact ⟨a, rfl, h⟩
  | error e => simp [pbind] at h

theorem asStrList_map_str (l : List String) : asStrList (l.map .str) = .ok l := by
  induction l with
  | nil => rfl
  | cons a as ih => simp [asStrList, pbind, ih]

theorem strPairs_map_str (l : List (String × String)) :
    strPairs (l.map fun kv => (kv.1, .str kv.2)) = .ok l := by
  induction l with
  | nil => rfl
  | cons a as ih => simp [strPairs, pbind, ih]

theorem parseMeta_metaTable (m : PluginMeta) : parseMeta (metaTable m) = .ok m := by
  obtain ⟨id, name, version, ptype, author, descr, lic, hp⟩ := m
  cases lic <;> cases hp <;>
    simp [parseMeta, metaTable, reqStr, optStr, strOr, lookupT, optEntry, pbind]

theorem natCast_lt_zero_false (n : Nat) : ((n : Int) < 0) = False :=
  eq_false (Int.not_lt.mpr (Int.natCast_nonneg n))

theorem parseCompat_compatTable (c : CompatibilityInfo) :
    parseCompat (compatTable c) = .ok c := by
  obtain ⟨api, minh, maxh, plats, deps⟩ := c
  cases minh <;> cases maxh <;>
    simp [parseCompat, compatTable, natOr, optStr, strListOr, lookupT, optEntry, pbind,
          asStrList_map_str, natCast_lt_zero_false]

theorem parseBinary_binaryTable (b : BinaryInfo) : parseBinary (binaryTable b) = .ok b := by
  simp [parseBinary, binaryTable, strOr, strMapOr, lookupT, pbind, strPairs_map_str]

theorem parseSignature_signatureTable (s : SignatureInfo) :
    parseSignature (signatureTable s) = .ok s := by
  simp [parseSignature, signatureTable, reqStr, lookupT, pbind]

theorem parseConfig_configTable (c : ConfigInfo) : parseConfig (configTable c) = .ok c := by
  simp [parseConfig, configTable, lookupT]

theorem parseService_serviceToToml (s : ServiceDeclaration) :
    parseService (serviceToToml s) = .ok s := by
  simp [parseService, serviceToToml, reqStr, strOr, lookupT, pbind]

theorem parseServiceReq_serviceReqToToml (s : ServiceRequirement) :
    parseServiceReq (serviceReqToToml s) = .ok s := by
  obtain ⟨id, minv, opt⟩ := s
  cases minv <;>
    simp [parseServiceReq, serviceReqToToml, reqStr, optStr, boolOr, lookupT, optEntry, pbind]

theorem parseCapability_capabilityToToml (c : CapabilityDeclaration) :
    parseCapability (capabilityToToml c) = .ok c := by
  simp [parseCapability, capabilityToToml, reqStr, strOr, lookupT, pbind]

theorem parseCli_cliTable (c : CliConfig) : parseCli (cliTable c) = .ok c := by
  simp [parseCli, cliTable, reqStr, strListOr, boolOr, lookupT, pbind, asStrList_map_str]

theorem parseTags_tagsTable (t : TagsInfo) : parseTags (tagsTable t) = .ok t := by
  simp [parseTags, tagsTable, strListOr, lookupT, pbind, asStrList_map_str]

theorem parseHive_hiveTable (h : HiveInfo) : parseHive (hiveTable h) = .ok h := by
  simp [parseHive, hiveTable, reqStr, lookupT, pbind]

theorem parseTranslation_translationTable (t : TranslationInfo) :
    parseTranslation (translationTable t) = .ok t := by
  simp [parseTranslation, translationTable, reqStr, lookupT, pbind]

theorem parseLanguage_languageTable (l : LanguageInfo) :
    parseLanguage (languageTable l) = .ok l := by
  simp [parseLanguage, languageTable, reqStr, reqStrList, lookupT, pbind, asStrList_map_str]

theorem parseRequirements_requirementsTable (r : RequirementsInfo) :
    parseRequirements (requirementsTable r) = .ok r := by
  obtain ⟨os, arch, notes⟩ := r
  cases os <;> cases arch <;> cases notes <;>
    simp [parseRequirements, requirementsTable, optStr, lookupT, optEntry, pbind]

theorem parseEach_parseService (l : List ServiceDeclaration) :
    parseEach parseService (l.map serviceToToml) = .ok l := by
  induction l with
  | nil => rfl
  | cons a as ih => simp [parseEach, parseService_serviceToToml, ih, pbind]

theorem parseEach_parseServiceReq (l : List ServiceRequirement) :
    parseEach parseServiceReq (l.map serviceReqToToml) = .ok l := by
  induction l with
  | nil => rfl
  | cons a as ih => simp [parseEach, parseServiceReq_serviceReqToToml, ih, pbind]

theorem parseEach_parseCapability (l : List CapabilityDeclaration) :
    parseEach parseCapability (l.map capabilityToToml) = .ok l := by
  induction l with
  | nil => rfl
  | cons a as ih => simp [parseEach, parseCapability_capabilityToToml, ih, pbind]

theorem parseOptSection_roundtrip {α : Type} (t : List (String × Toml)) (field : String)
    (o : Option α) (ser : α → List (String × Toml)) (p : List (String × Toml) → Except String α)
    (hl : lookupT t field = o.map fun a => .table (ser a))
    (hp : ∀ a, p (ser a) = .ok a) : parseOptSection t field p = .ok o := by
  cases o <;> simp [parseOptSection, hl, hp, pbind]

theorem parseDfltSection_roundtrip {α : Type} (t : List (String × Toml)) (field : String)
    (dflt : α) (x : α) (ser : α → List (String × Toml))
    (p : List (String × Toml) → Except String α)
    (hl : lookupT t field = some (.table (ser x)))
    (hp : p (ser x) = .ok x) : parseDfltSection t field dflt p = .ok x := by
  simp [parseDfltSection, hl, hp]

theorem lookupT_top_plugin (m : PluginManifest) :
    lookupT (topTable m) "plugin" = some (.table (metaTable m.plugin)) := by
  simp [topTable, metaToToml, lookupT_cons_hit]

theorem lookupT_top_compat (m : PluginManifest) :
    lookupT (topTable m) "compatibility" = some (.table (compatTable m.compatibility)) := by
  simp [topTable, compatToToml, lookupT, lookupT_cons_hit, lookupT_cons_skip]

theorem lookupT_top_binary (m : PluginManifest) :
    lookupT (topTable m) "binary" = some (.table (binaryTable m.binary)) := by
  simp [topTable, binaryToToml, lookupT, lookupT_cons_hit, lookupT_cons_skip]

theorem lookupT_top_signature (m : PluginManifest) :
    lookupT (topTable m) "signature" =
      m.signature.map fun s => .table (signatureTable s) := by
  simp only [topTable, List.append_assoc, List.cons_append, List.nil_append, signatureToToml]
  rw [lookupT_cons_skip _ _ (by decide), lookupT_cons_skip _ _ (by decide),
      lookupT_cons_skip _ _ (by decide), lookupT_optEntry_hit]
  all_goals first
  | rfl
  | simp [lookupT, lookupT_cons_skip, lookupT_optEntry_skip, lookupT_optEntry_last_skip]

theorem lookupT_top_config (m : PluginManifest) :
    lookupT (topTable m) "config" = some (.table (configTable m.config)) := by
  simp only [topTable, List.append_assoc, List.cons_append, List.nil_append, configToToml]
  rw [lookupT_cons_skip _ _ (by decide), lookupT_cons_skip _ _ (by decide),
      lookupT_cons_skip _ _ (by decide), lookupT_optEntry_skip _ _ (by decide),
      lookupT_cons_hit]

theorem lookupT_top_provides (m : PluginManifest) :
    lookupT (topTable m) "provides" = some (.arr (m.provides.map serviceToToml)) := by
  simp only [topTable, List.append_assoc, List.cons_append, List.nil_append]
  rw [lookupT_cons_skip _ _ (by decide), lookupT_cons_skip _ _ (by decide),
      lookupT_cons_skip _ _ (by decide), lookupT_optEntry_skip _ _ (by decide),
      lookupT_cons_skip _ _ (by decide), lookupT_cons_hit]

theorem lookupT_top_requires (m : PluginManifest) :
    lookupT (topTable m) "requires" = some (.arr (m.requires.map serviceReqToToml)) := by
  simp only [topTable, List.append_assoc, List.cons_append, List.nil_append]
  rw [lookupT_cons_skip _ _ (by decide), lookupT_cons_skip _ _ (by decide),
      lookupT_cons_skip _ _ (by decide), lookupT_optEntry_skip _ _ (by decide),
      lookupT_cons_skip _ _ (by decide), lookupT_cons_skip _ _ (by decide),
      lookupT_cons_hit]

theorem lookupT_top_cli (m : PluginManifest) :
    lookupT (topTable m) "cli" = m.cli.map fun c => .table (cliTable c) := by
  simp only [topTable, List.append_assoc, List.cons_append, List.nil_append, cliToToml]
  rw [lookupT_cons_skip _ _ (by decide), lookupT_cons_skip _ _ (by decide),
      lookupT_cons_skip _ _ (by decide), lookupT_optEntry_skip _ _ (by decide),
      lookupT_cons_skip _ _ (by decide), lookupT_cons_skip _ _ (by decide),
      lookupT_cons_skip _ _ (by decide), lookupT_optEntry_hit]
  all_goals first
  | rfl
  | simp [lookupT, lookupT_cons_skip, lookupT_optEntry_skip, lookupT_optEntry_last_skip]

theorem lookupT_top_capabilities (m : PluginManifest) :
    lookupT (topTable m) "capabilities" =
      some (.arr (m.capabilities.map capabilityToToml)) := by
  simp only [topTable, List.append_assoc, List.cons_append, List.nil_append]
  rw [lookupT_cons_skip _ _ (by decide), lookupT_cons_skip _ _ (by decide),
      lookupT_cons_skip _ _ (by decide), lookupT_optEntry_skip _ _ (by decide),
      lookupT_cons_skip _ _ (by decide), lookupT_cons_skip _ _ (by decide),
      lookupT_cons_skip _ _ (by decide), lookupT_optEntry_skip _ _ (by decide),
      lookupT_cons_hit]

theorem lookupT_top_tags (m : PluginManifest) :
    lookupT (topTable m) "tags" = m.tags.map fun t => .table (tagsTable t) := by
  simp only [topTable, List.append_assoc, List.cons_append, List.nil_append, tagsToToml]
  rw [lookupT_cons_skip _ _ (by decide), lookupT_cons_skip _ _ (by decide),
      lookupT_cons_skip _ _ (by decide), lookupT_optEntry_skip _ _ (by decide),
      lookupT_cons_skip _ _ (by decide), lookupT_cons_skip _ _ (by decide),
      lookupT_cons_skip _ _ (by decide), lookupT_optEntry_skip _ _ (by decide),
      lookupT_cons_skip _ _ (by decide), lookupT_optEntry_hit]
  all_goals first
  | rfl
  | simp [lookupT, lookupT_cons_skip, lookupT_optEntry_skip, lookupT_optEntry_last_skip]

theorem lookupT_top_hive (m : PluginManifest) :
    lookupT (topTable m) "hive" = m.hive.map fun h => .table (hiveTable h) := by
  simp only [topTable, List.append_assoc, List.cons_append, List.nil_append, hiveToToml]
  rw [lookupT_cons_skip _ _ (by decide), lookupT_cons_skip _ _ (by decide),
      lookupT_cons_skip _ _ (by decide), lookupT_optEntry_skip _ _ (by decide),
      lookupT_cons_skip _ _ (by decide), lookupT_cons_skip _ _ (by decide),
      lookupT_cons_skip _ _ (by decide), lookupT_optEntry_skip _ _ (by decide),
      lookupT_cons_skip _ _ (by decide), lookupT_optEntry_skip _ _ (by decide),
      lookupT_optEntry_hit]
  all_goals first
  | rfl
  | simp [lookupT, lookupT_cons_skip, lookupT_optEntry_skip, lookupT_optEntry_last_skip]

theorem lookupT_top_translation (m : PluginManifest) :
    lookupT (topTable m) "translation" =
      m.translation.map fun t => .table (translationTable t) := by
  simp only [topTable, List.append_assoc, List.cons_append, List.nil_append, translationToToml]
  rw [lookupT_cons_skip _ _ (by decide), lookupT_cons_skip _ _ (by decide),
      lookupT_cons_skip _ _ (by decide), lookupT_optEntry_skip _ _ (by decide),
      lookupT_cons_skip _ _ (by decide), lookupT_cons_skip _ _ (by decide),
      lookupT_cons_skip _ _ (by decide), lookupT_optEntry_skip _ _ (by decide),
      lookupT_cons_skip _ _ (by decide), lookupT_optEntry_skip _ _ (by decide),
      lookupT_optEntry_skip _ _ (by decide), lookupT_optEntry_hit]
  all_goals first
  | rfl
  | simp [lookupT, lookupT_cons_skip, lookupT_optEntry_skip, lookupT_optEntry_last_skip]

theorem lookupT_top_language (m : PluginManifest) :
    lookupT (topTable m) "language" = m.language.map fun l => .table (languageTable l) := by
  simp only [topTable, List.append_assoc, List.cons_append, List.nil_append, languageToToml]
  rw [lookupT_cons_skip _ _ (by decide), lookupT_cons_skip _ _ (by decide),
      lookupT_cons_skip _ _ (by decide), lookupT_optEntry_skip _ _ (by decide),
      lookupT_cons_skip _ _ (by decide), lookupT_cons_skip _ _ (by decide),
      lookupT_cons_skip _ _ (by decide), lookupT_optEntry_skip _ _ (by decide),
      lookupT_cons_skip _ _ (by decide), lookupT_optEntry_skip _ _ (by decide),
      lookupT_optEntry_skip _ _ (by decide), lookupT_optEntry_skip _ _ (by decide),
      lookupT_optEntry_hit]
  all_goals first
  | rfl
  | simp [lookupT, lookupT_cons_skip, lookupT_optEntry_skip, lookupT_optEntry_last_skip]

theorem lookupT_top_requirements (m : PluginManifest) :
    lookupT (topTable m) "requirements" =
      m.requirements.map fun r => .table (requirementsTable r) := by
  simp only [topTable, List.append_assoc, List.cons_append, List.nil_append, requirementsToToml]
  rw [lookupT_cons_skip _ _ (by decide), lookupT_cons_skip _ _ (by decide),
      lookupT_cons_skip _ _ (by decide), lookupT_optEntry_skip _ _ (by decide),
      lookupT_cons_skip _ _ (by decide), lookupT_cons_skip _ _ (by decide),
      lookupT_cons_skip _ _ (by decide), lookupT_optEntry_skip _ _ (by decide),
      lookupT_cons_skip _ _ (by decide), lookupT_optEntry_skip _ _ (by decide),
      lookupT_optEntry_skip _ _ (by decide), lookupT_optEntry_skip _ _ (by decide),
      lookupT_optEntry_skip _ _ (by decide), lookupT_optEntry_last]
  rfl

/-- C5: round-trip.  At the value-tree level serialization is total for this
type, and re-parsing the serialized tree reproduces the manifest exactly —
in particular `plugin.id`, `plugin.version`, `cli` and `provides` are
identical, which is what the claim requires. -/
theorem from_toml_to_toml_roundtrip (m : PluginManifest) :
    PluginManifest.from_toml m.to_toml = .ok m := by
  have hcompat : parseDfltSection (topTable m) "compatibility" defaultCompatibilityInfo
      parseCompat = .ok m.compatibility :=
    parseDfltSection_roundtrip _ _ _ m.compatibility compatTable parseCompat
      (lookupT_top_compat m) (parseCompat_compatTable m.compatibility)
  have hbinary : parseDfltSection (topTable m) "binary" defaultBinaryInfo
      parseBinary = .ok m.binary :=
    parseDfltSection_roundtrip _ _ _ m.binary binaryTable parseBinary
      (lookupT_top_binary m) (parseBinary_binaryTable m.binary)
  have hsig : parseOptSection (topTable m) "signature" parseSignature = .ok m.signature :=
    parseOptSection_roundtrip _ _ m.signature signatureTable parseSignature
      (lookupT_top_signature m) parseSignature_signatureTable
  have hconfig : parseDfltSection (topTable m) "config" defaultConfigInfo
      parseConfig = .ok m.config :=
    parseDfltSection_roundtrip _ _ _ m.config configTable parseConfig
      (lookupT_top_config m) (parseConfig_configTable m.config)
  have hprov : parseArraySection (topTable m) "provides" parseService = .ok m.provides := by
    simp [parseArraySection, lookupT_top_provides m, parseEach_parseService]
  have hreq : parseArraySection (topTable m) "requires" parseServiceReq = .ok m.requires := by
    simp [parseArraySection, lookupT_top_requires m, parseEach_parseServiceReq]
  have hcli : parseOptSection (topTable m) "cli" parseCli = .ok m.cli :=
    parseOptSection_roundtrip _ _ m.cli cliTable parseCli (lookupT_top_cli m) parseCli_cliTable
  have hcaps : parseArraySection (topTable m) "capabilities" parseCapability =
      .ok m.capabilities := by
    simp [parseArraySection, lookupT_top_capabilities m, parseEach_parseCapability]
  have htags : parseOptSection (topTable m) "tags" parseTags = .ok m.tags :=
    parseOptSection_roundtrip _ _ m.tags tagsTable parseTags (lookupT_top_tags m)
      parseTags_tagsTable
  have hhive : parseOptSection (topTable m) "hive" parseHive = .ok m.hive :=
    parseOptSection_roundtrip _ _ m.hive hiveTable parseHive (lookupT_top_hive m)
      parseHive_hiveTable
  have htrans : parseOptSection (topTable m) "translation" parseTranslation =
      .ok m.translation :=
    parseOptSection_roundtrip _ _ m.translation translationTable parseTranslation
      (lookupT_top_translation m) parseTranslation_translationTable
  have hlang : parseOptSection (topTable m) "language" parseLanguage = .ok m.language :=
    parseOptSection_roundtrip _ _ m.language languageTable parseLanguage
      (lookupT_top_language m) parseLanguage_languageTable
  have hreqs : parseOptSection (topTable m) "requirements" parseRequirements =
      .ok m.requirements :=
    parseOptSection_roundtrip _ _ m.requirements requirementsTable parseRequirements
      (lookupT_top_requirements m) parseRequirements_requirementsTable
  simp [PluginManifest.from_toml, PluginManifest.to_toml, parseManifest,
        lookupT_top_plugin m, parseMeta_metaTable, hcompat, hbinary, hsig, hconfig,
        hprov, hreq, hcli, hcaps, htags, hhive, htrans, hlang, hreqs, pbind]

theorem reqStr_ok {t : List (String × Toml)} {f s : String}
    (h : reqStr t f = .ok s) : lookupT t f = some (.str s) := by
  unfold reqStr at h
  cases hl : lookupT t f with
  | none => rw [hl] at h; cases h
  | some v =>
    rw [hl] at h
    cases v with
    | str s2 => cases h; rfl
    | int n => cases h
    | bool b => cases h
    | arr l => cases h
    | table kv => cases h

theorem parseMeta_ok_lookups {t : List (String × Toml)} {meta : PluginMeta}
    (h : parseMeta t = .ok meta) :
    (∃ s, lookupT t "id" = some (.str s)) ∧ (∃ s, lookupT t "name" = some (.str s)) ∧
    (∃ s, lookupT t "version" = some (.str s)) ∧ (∃ s, lookupT t "type" = some (.str s)) := by
  unfold parseMeta at h
  obtain ⟨a1, h1, h⟩ := pbind_ok h
  obtain ⟨a2, h2, h⟩ := pbind_ok h
  obtain ⟨a3, h3, h⟩ := pbind_ok h
  obtain ⟨a4, h4, h⟩ := pbind_ok h
  exact ⟨⟨a1, reqStr_ok h1⟩, ⟨a2, reqStr_ok h2⟩, ⟨a3, reqStr_ok h3⟩, ⟨a4, reqStr_ok h4⟩⟩

/-- C6 counterexample: a document whose `[plugin]` table lacks `id` fails
with `TomlParse` (the wrapped serde diagnostic) and NOT with
`MissingField("plugin.id")` as the claim states; moreover a present `[cli]`
table lacking `command` also fails, so not every non-mandatory field may be
absent. -/
theorem missing_field_error_variant_counterexample :
    PluginManifest.from_toml docMissingId = .error (.TomlParse "missing field id") ∧
    (PluginManifest.from_toml docMissingId = .error (.MissingField "plugin.id")) = False ∧
    PluginManifest.from_toml docEmptyCli = .error (.TomlParse "missing field command") := by
  refine ⟨rfl, eq_false ?_, rfl⟩
  intro h
  rw [show PluginManifest.from_toml docMissingId =
        .error (.TomlParse "missing field id") from rfl] at h
  simp at h

/-- C6 (amended): parsing a well-formed document whose `plugin` table omits
one of the mandatory fields `id`, `name`, `version`, `type` fails with a
`TomlParse` error (the serde missing-field diagnostic wrapped by
`from_toml`), not with `MissingField`; and a minimal document carrying only
those four fields parses successfully, with every omitted defaulted field
taking its default and every omitted optional section absent. -/
theorem missing_mandatory_field_toml_parse :
    (∀ kvs pkvs, lookupT kvs "plugin" = some (.table pkvs) →
      (lookupT pkvs "id" = none ∨ lookupT pkvs "name" = none ∨
       lookupT pkvs "version" = none ∨ lookupT pkvs "type" = none) →
      ∃ msg, PluginManifest.from_toml (.table kvs) = .error (.TomlParse msg)) ∧
    PluginManifest.from_toml minimalDoc =
      .ok ⟨⟨"test.plugin", "Test", "1.0.0", "extension", "", "", none, none⟩,
           defaultCompatibilityInfo, defaultBinaryInfo, none, defaultConfigInfo,
           [], [], none, [], none, none, none, none, none⟩ := by
  constructor
  · intro kvs pkvs hp hmiss
    cases hpm : parseManifest (.table kvs) with
    | error e => exact ⟨e, by simp [PluginManifest.from_toml, hpm]⟩
    | ok mm =>
      exfalso
      have hmeta : ∃ meta, parseMeta pkvs = .ok meta := by
        simp only [parseManifest, hp, pbind] at hpm
        obtain ⟨meta, hm, _⟩ := pbind_ok hpm
        exact ⟨meta, hm⟩
      obtain ⟨meta, hm⟩ := hmeta
      have h4 := parseMeta_ok_lookups hm
      rcases hmiss with h | h | h | h
      · obtain ⟨s, hs⟩ := h4.1
        simp [h] at hs
      · obtain ⟨s, hs⟩ := h4.2.1
        simp [h] at hs
      · obtain ⟨s, hs⟩ := h4.2.2.1
        simp [h] at hs
      · obtain ⟨s, hs⟩ := h4.2.2.2
        simp [h] at hs
  · rfl

/-- Witness for C6 at a concrete document missing `plugin.id`. -/
theorem missing_mandatory_field_toml_parse_witness :
    ∃ msg, PluginManifest.from_toml
        (.table [("plugin", .table [("name", .str "Test"), ("version", .str "1.0.0"),
                                    ("type", .str "extension")])]) =
      .error (.TomlParse msg) :=
  missing_mandatory_field_toml_parse.1 _ _ rfl (.inl rfl)

/-! ### Basic lemmas about the traversal -/

theorem visit_zero_eq (plugins : List PluginDef) (plugin_id : String) (st : VisitState) :
    visit plugins 0 plugin_id st = .error (.InvalidFormat "recursion fuel exhausted") := rfl

theorem visit_succ_eq (plugins : List PluginDef) (fuel : Nat) (plugin_id : String)
    (st : VisitState) :
    visit plugins (fuel + 1) plugin_id st =
      if plugin_id ∈ st.visited then .ok st
      else if plugin_id ∈ st.inProgress then .error (.CircularDependency plugin_id)
      else
        match lookupPlugin plugins plugin_id with
        | none => .ok ⟨st.visited, insert plugin_id st.inProgress, st.result⟩
        | some p =>
          match visitDeps plugins fuel p.depends_on
              ⟨st.visited, insert plugin_id st.inProgress, st.result⟩ with
          | .error e => .error e
          | .ok st2 => .ok ⟨insert plugin_id st2.visited, st2.inProgress.erase plugin_id,
                            st2.result ++ [p]⟩ := rfl

theorem visitDeps_nil_eq (plugins : List PluginDef) (fuel : Nat) (st : VisitState) :
    visitDeps plugins fuel [] st = .ok st := rfl

theorem visitDeps_cons_eq (plugins : List PluginDef) (fuel : Nat) (d : String)
    (ds : List String) (st : VisitState) :
    visitDeps plugins fuel (d :: ds) st =
      match visit plugins fuel d st with
      | .ok st1 => visitDeps plugins fuel ds st1
      | .error e => .error e := by
  show (visit plugins fuel d st >>= fun s => visitDeps plugins fuel ds s) = _
  cases visit plugins fuel d st <;> rfl

theorem lookupPlugin_eq_some {plugins : List PluginDef} {id : String} {p : PluginDef}
    (h : lookupPlugin plugins id = some p) : p ∈ plugins ∧ p.id = id := by
  induction plugins with
  | nil => cases h
  | cons q qs ih =>
    rw [lookupPlugin] at h
    cases hq : lookupPlugin qs id with
    | some r =>
      rw [hq] at h
      cases h
      exact ⟨List.mem_cons_of_mem _ (ih hq).1, (ih hq).2⟩
    | none =>
      rw [hq] at h
      by_cases hid : q.id = id
      · rw [if_pos hid] at h
        cases h
        exact ⟨List.mem_cons_self _ _, hid⟩
      · rw [if_neg hid] at h
        cases h

theorem lookupPlugin_eq_none_of_not_mem {plugins : List PluginDef} {id : String}
    (h : id ∉ plugins.map (·.id)) : lookupPlugin plugins id = none := by
  induction plugins with
  | nil => rfl
  | cons q qs ih =>
    rw [lookupPlugin]
    have hq : q.id ≠ id := fun he => h (by simp [he])
    have hqs : id ∉ qs.map (·.id) := fun hm => h (by simp [hm])
    rw [ih hqs, if_neg hq]

theorem lookupPlugin_isSome_of_mem {plugins : List PluginDef} {id : String}
    (h : id ∈ plugins.map (·.id)) : ∃ p, lookupPlugin plugins id = some p := by
  cases hl : lookupPlugin plugins id with
  | some p => exact ⟨p, rfl⟩
  | none =>
    induction plugins with
    | nil => simp at h
    | cons q qs ih =>
      rw [lookupPlugin] at hl
      cases hq : lookupPlugin qs id with
      | some r => rw [hq] at hl; cases hl
      | none =>
        rw [hq] at hl
        by_cases hid : q.id = id
        · rw [if_pos hid] at hl; cases hl
        · rw [if_neg hid] at hl
          rcases List.mem_map.mp h with ⟨r, hr, hrid⟩
          subst hrid
          rcases List.mem_cons.mp hr with rfl | hrqs
          · exact absurd rfl hid
          · exact ih (List.mem_map_of_mem _ hrqs) hq

theorem lookupPlugin_of_nodup {plugins : List PluginDef} {p : PluginDef}
    (hn : (plugins.map (·.id)).Nodup) (hp : p ∈ plugins) :
    lookupPlugin plugins p.id = some p := by
  induction plugins with
  | nil => simp at hp
  | cons q qs ih =>
    rw [lookupPlugin]
    rcases List.mem_cons.mp hp with rfl | hpqs
    · have hnot : p.id ∉ qs.map (·.id) := by
        simpa using (List.nodup_cons.mp hn).1
      rw [lookupPlugin_eq_none_of_not_mem hnot, if_pos rfl]
    · rw [ih (List.nodup_cons.mp hn).2 hpqs]

theorem mem_idUniverse_of_id {plugins : List PluginDef} {p : PluginDef}
    (hp : p ∈ plugins) : p.id ∈ idUniverse plugins := by
  simp only [idUniverse, List.mem_toFinset, List.mem_append]
  exact .inl (List.mem_map_of_mem _ hp)

theorem mem_idUniverse_of_dep {plugins : List PluginDef} {p : PluginDef} {d : String}
    (hp : p ∈ plugins) (hd : d ∈ p.depends_on) : d ∈ idUniverse plugins := by
  simp only [idUniverse, List.mem_toFinset, List.mem_append]
  exact .inr (List.mem_flatMap.mpr ⟨p, hp, hd⟩)

theorem mem_idUniverse_of_present {plugins : List PluginDef} {id : String}
    (h : id ∈ plugins.map (·.id)) : id ∈ idUniverse plugins := by
  simp only [idUniverse, List.mem_toFinset, List.mem_append]
  exact .inl h

theorem visitConcl_rfl (plugins : List PluginDef) {st : VisitState}
    (h : ResultInv plugins st) : visitConcl plugins st st :=
  ⟨h, subset_rfl, subset_rfl, subset_rfl, [], by simp⟩

theorem visitConcl_trans {plugins : List PluginDef} {st st1 st2 : VisitState}
    (h1 : visitConcl plugins st st1) (h2 : visitConcl plugins st1 st2) :
    visitConcl plugins st st2 := by
  obtain ⟨hi1, hv1, hp1, hu1, t1, ht1⟩ := h1
  obtain ⟨hi2, hv2, hp2, hu2, t2, ht2⟩ := h2
  exact ⟨hi2, hv1.trans hv2, hp1.trans hp2, hu1.trans hu2, t1 ++ t2, by
    rw [ht2, ht1, List.append_assoc]⟩

theorem visited_eq_append {vis : Finset String} {res : List PluginDef} {p : PluginDef}
    (h : vis = (res.map (·.id)).toFinset) :
    insert p.id vis = ((res ++ [p]).map (·.id)).toFinset := by
  subst h
  ext x
  simp [or_comm]

theorem nodup_ids_append {res : List PluginDef} {p : PluginDef}
    (h : (res.map (·.id)).Nodup) (hp : p.id ∉ res.map (·.id)) :
    ((res ++ [p]).map (·.id)).Nodup := by
  simp only [List.map_append, List.map_cons, List.map_nil]
  exact List.Nodup.append h (List.nodup_singleton _) (by simpa using hp)

theorem ordered_append {plugins res : List PluginDef} {p : PluginDef}
    (hres : ∀ i (hi : i < res.length), ∀ d ∈ (res.get ⟨i, hi⟩).depends_on,
        d ∈ plugins.map (·.id) → d ∈ (res.take i).map (·.id))
    (hp : ∀ d ∈ p.depends_on, d ∈ plugins.map (·.id) → d ∈ res.map (·.id)) :
    ∀ i (hi : i < (res ++ [p]).length), ∀ d ∈ ((res ++ [p]).get ⟨i, hi⟩).depends_on,
      d ∈ plugins.map (·.id) → d ∈ ((res ++ [p]).take i).map (·.id) := by
  intro i hi d hd hpres
  rcases Nat.lt_or_ge i res.length with hlt | hge
  · have hget : (res ++ [p]).get ⟨i, hi⟩ = res.get ⟨i, hlt⟩ := by
      simp [List.getElem_append_left, hlt]
    rw [hget] at hd
    have htake : (res ++ [p]).take i = res.take i := by
      rw [List.take_append_eq_append_take, Nat.sub_eq_zero_of_le (le_of_lt hlt)]
      simp
    rw [htake]
    exact hres i hlt d hd hpres
  · have hilen : i < res.length + 1 := by simpa using hi
    have hieq : i = res.length := by omega
    subst hieq
    have hget : (res ++ [p]).get ⟨res.length, hi⟩ = p := by
      simp
    rw [hget] at hd
    have htake : (res ++ [p]).take res.length = res := by
      rw [List.take_append_eq_append_take, Nat.sub_self]
      simp
    rw [htake]
    exact hp d hd hpres

/-- Joint invariant preservation for `visit` and its dependency loop, by
induction on the fuel. -/
theorem visit_inv_aux (plugins : List PluginDef) : ∀ fuel : Nat,
    (∀ (id : String) (st st' : VisitState), visit plugins fuel id st = .ok st' →
       ResultInv plugins st →
       visitConcl plugins st st' ∧ (id ∈ plugins.map (·.id) → id ∈ st'.visited)) ∧
    (∀ (deps : List String) (st st' : VisitState), visitDeps plugins fuel deps st = .ok st' →
       ResultInv plugins st →
       visitConcl plugins st st' ∧ ∀ d ∈ deps, d ∈ plugins.map (·.id) → d ∈ st'.visited) := by
  intro fuel
  induction fuel with
  | zero =>
    constructor
    · intro id st st' hok _
      rw [visit_zero_eq] at hok
      cases hok
    · intro deps st st' hok hinv
      cases deps with
      | nil =>
        rw [visitDeps_nil_eq] at hok
        cases hok
        exact ⟨visitConcl_rfl _ hinv, by simp⟩
      | cons d ds =>
        rw [visitDeps_cons_eq, visit_zero_eq] at hok
        exact absurd hok (by simp)
  | succ fuel ih =>
    have hvisit : ∀ (id : String) (st st' : VisitState),
        visit plugins (fuel + 1) id st = .ok st' → ResultInv plugins st →
        visitConcl plugins st st' ∧ (id ∈ plugins.map (·.id) → id ∈ st'.visited) := by
      intro id st st' hok hinv
      obtain ⟨hveq, hnd, hlkps, hdisj, hord⟩ := hinv
      rw [visit_succ_eq] at hok
      by_cases h1 : id ∈ st.visited
      · rw [if_pos h1] at hok
        cases hok
        exact ⟨visitConcl_rfl _ ⟨hveq, hnd, hlkps, hdisj, hord⟩, fun _ => h1⟩
      · rw [if_neg h1] at hok
        by_cases h2 : id ∈ st.inProgress
        · rw [if_pos h2] at hok
          cases hok
        · rw [if_neg h2] at hok
          cases hlk : lookupPlugin plugins id with
          | none =>
            rw [hlk] at hok
            cases hok
            refine ⟨⟨⟨hveq, hnd, hlkps, ?_, hord⟩, subset_rfl,
                     Finset.subset_insert _ _, ?_, [], by simp⟩, ?_⟩
            · exact Finset.disjoint_insert_right.mpr ⟨h1, hdisj⟩
            · exact Finset.union_subset_union subset_rfl (Finset.subset_insert _ _)
            · intro hpres
              obtain ⟨p, hp⟩ := lookupPlugin_isSome_of_mem hpres
              rw [hlk] at hp
              cases hp
          | some p =>
            simp only [hlk] at hok
            have hinv1 : ResultInv plugins ⟨st.visited, insert id st.inProgress, st.result⟩ :=
              ⟨hveq, hnd, hlkps, Finset.disjoint_insert_right.mpr ⟨h1, hdisj⟩, hord⟩
            cases hd : visitDeps plugins fuel p.depends_on
                ⟨st.visited, insert id st.inProgress, st.result⟩ with
            | error e =>
              simp only [hd] at hok
              cases hok
            | ok st2 =>
              simp only [hd] at hok
              cases hok
              obtain ⟨⟨hveq2, hnd2, hlkps2, hdisj2, hord2⟩, hvis12, hip12, hun12, tail2, ht2⟩ :=
                (ih.2 p.depends_on _ st2 hd hinv1).1
              have hdeps := (ih.2 p.depends_on _ st2 hd hinv1).2
              have hpid : p.id = id := (lookupPlugin_eq_some hlk).2
              have hidin2 : id ∈ st2.inProgress := hip12 (Finset.mem_insert_self id st.inProgress)
              have hidnotvis2 : id ∉ st2.visited := fun hmem =>
                (Finset.disjoint_left.mp hdisj2) hmem hidin2
              have hidnotids2 : id ∉ st2.result.map (·.id) := by
                intro hmem
                exact hidnotvis2 (by rw [hveq2]; exact List.mem_toFinset.mpr hmem)
              refine ⟨⟨⟨?_, ?_, ?_, ?_, ?_⟩, ?_, ?_, ?_, ?_⟩, ?_⟩
              · rw [← hpid]
                exact visited_eq_append hveq2
              · exact nodup_ids_append hnd2 (hpid ▸ hidnotids2)
              · intro q hq
                rcases List.mem_append.mp hq with hq2 | hq1
                · exact hlkps2 q hq2
                · rw [List.mem_singleton.mp hq1, hpid]
                  exact hlk
              · refine Finset.disjoint_insert_left.mpr ⟨Finset.not_mem_erase _ _, ?_⟩
                exact hdisj2.mono_right (Finset.erase_subset _ _)
              · refine ordered_append hord2 ?_
                intro d hdp hpres
                have := hdeps d hdp hpres
                rw [hveq2] at this
                exact List.mem_toFinset.mp this
              · exact (hvis12.trans (Finset.subset_insert _ _))
              · intro x hx
                refine Finset.mem_erase.mpr ⟨fun hxe => h2 (hxe ▸ hx), ?_⟩
                exact hip12 (Finset.mem_insert_of_mem hx)
              · intro x hx
                have hx2 : x ∈ st2.visited ∪ st2.inProgress := by
                  apply hun12
                  rcases Finset.mem_union.mp hx with hxa | hxb
                  · exact Finset.mem_union_left _ hxa
                  · exact Finset.mem_union_right _ (Finset.mem_insert_of_mem hxb)
                by_cases hxid : x = id
                · exact Finset.mem_union_left _ (hxid ▸ Finset.mem_insert_self _ _)
                · rcases Finset.mem_union.mp hx2 with hxa | hxb
                  · exact Finset.mem_union_left _ (Finset.mem_insert_of_mem hxa)
                  · exact Finset.mem_union_right _ (Finset.mem_erase.mpr ⟨hxid, hxb⟩)
              · exact ⟨tail2 ++ [p], by rw [ht2]; simp⟩
              · intro _
                exact Finset.mem_insert_self _ _
    refine ⟨hvisit, ?_⟩
    intro deps
    induction deps with
    | nil =>
      intro st st' hok hinv
      rw [visitDeps_nil_eq] at hok
      cases hok
      exact ⟨visitConcl_rfl _ hinv, by simp⟩
    | cons d ds ihds =>
      intro st st' hok hinv
      rw [visitDeps_cons_eq] at hok
      cases hv : visit plugins (fuel + 1) d st with
      | error e =>
        rw [hv] at hok
        exact absurd hok (by simp)
      | ok st1 =>
        rw [hv] at hok
        obtain ⟨hc1, hdmem⟩ := hvisit d st st1 hv hinv
        obtain ⟨hc2, hds⟩ := ihds st1 st' hok hc1.1
        refine ⟨visitConcl_trans hc1 hc2, ?_⟩
        intro x hx hpres
        rcases List.mem_cons.mp hx with rfl | hxds
        · exact hc2.2.1 (hdmem hpres)
        · exact hds x hxds hpres

theorem visitAll_inv (plugins : List PluginDef) (fuel : Nat) :
    ∀ (ps : List PluginDef) (st st' : VisitState),
      visitAll plugins fuel ps st = .ok st' → ResultInv plugins st →
      visitConcl plugins st st' ∧ ∀ p ∈ ps, p.id ∈ plugins.map (·.id) → p.id ∈ st'.visited := by
  intro ps
  induction ps with
  | nil =>
    intro st st' hok hinv
    cases hok
    exact ⟨visitConcl_rfl _ hinv, by simp⟩
  | cons p ps ihp =>
    intro st st' hok hinv
    cases hv : visit plugins fuel p.id st with
    | error e =>
      simp only [visitAll, hv] at hok
      cases hok
    | ok st1 =>
      simp only [visitAll, hv] at hok
      obtain ⟨hc1, hid1⟩ := (visit_inv_aux plugins fuel).1 p.id st st1 hv hinv
      obtain ⟨hc2, hrest⟩ := ihp st1 st' hok hc1.1
      refine ⟨visitConcl_trans hc1 hc2, ?_⟩
      intro q hq hqpres
      rcases List.mem_cons.mp hq with rfl | hqs
      · exact hc2.2.1 (hid1 hqpres)
      · exact hrest q hqs hqpres

theorem install_order_ok_state {pkg : PackageManifest} {l : List PluginDef}
    (h : pkg.install_order = .ok l) :
    ∃ st' : VisitState, st'.result = l ∧ ResultInv pkg.plugins st' ∧
      ∀ p ∈ pkg.plugins, p.id ∈ st'.visited := by
  unfold PackageManifest.install_order at h
  cases hva : visitAll pkg.plugins (fuelFor pkg.plugins) pkg.plugins ⟨∅, ∅, []⟩ with
  | error e =>
    simp only [hva] at h
    cases h
  | ok st' =>
    simp only [hva] at h
    cases h
    have hinv0 : ResultInv pkg.plugins ⟨∅, ∅, []⟩ := by
      refine ⟨by simp, by simp, by simp, by simp, ?_⟩
      intro i hi
      simp at hi
    obtain ⟨hc, hall⟩ := visitAll_inv pkg.plugins _ pkg.plugins _ _ hva hinv0
    exact ⟨st', rfl, hc.1, fun p hp => hall p hp (List.mem_map_of_mem _ hp)⟩

/-- C1: whenever `install_order` succeeds, every entry of the returned list
has all of its present dependencies realized strictly earlier in the list:
the `PluginDef` whose id is the dependency appears before the dependent
entry.  (For packages with distinct ids this is exactly: B ∈ A's
`depends_on` and B present implies B precedes A.) -/
theorem install_order_respects_deps (pkg : PackageManifest) (l : List PluginDef)
    (h : pkg.install_order = .ok l) :
    ∀ i (hi : i < l.length), ∀ d ∈ (l.get ⟨i, hi⟩).depends_on,
      d ∈ pkg.plugins.map (·.id) → d ∈ (l.take i).map (·.id) := by
  obtain ⟨st', hres, hinv, _⟩ := install_order_ok_state h
  cases hres
  exact hinv.2.2.2.2

/-- Witness for C1 on the repository's linear-chain test package: the
computed order is a, b, c and the dependency "b" of entry 2 (plugin c)
indeed occurs among the first two ids. -/
theorem install_order_respects_deps_witness :
    chainPkg.install_order =
      .ok [simpleDef "a" [], simpleDef "b" ["a"], simpleDef "c" ["a", "b"]] ∧
    "b" ∈ (([simpleDef "a" [], simpleDef "b" ["a"],
             simpleDef "c" ["a", "b"]].take 2).map (·.id)) := by
  refine ⟨rfl, ?_⟩
  exact install_order_respects_deps chainPkg
    [simpleDef "a" [], simpleDef "b" ["a"], simpleDef "c" ["a", "b"]] rfl
    2 (by decide) "b" (by decide) (by decide)

/-- C10: for packages with pairwise distinct plugin ids, a successful
`install_order` returns a permutation of the declared plugin list — every
`PluginDef` exactly once and nothing else — regardless of dangling
`depends_on` references. -/
theorem install_order_permutation (pkg : PackageManifest) (l : List PluginDef)
    (hn : (pkg.plugins.map (·.id)).Nodup) (h : pkg.install_order = .ok l) :
    l.Perm pkg.plugins := by
  obtain ⟨st', hres, hinv, hall⟩ := install_order_ok_state h
  cases hres
  obtain ⟨hveq, hnd, hlkps, _, _⟩ := hinv
  have hlnd : st'.result.Nodup := List.Nodup.of_map _ hnd
  have hpnd : pkg.plugins.Nodup := List.Nodup.of_map _ hn
  refine (List.perm_ext_iff_of_nodup hlnd hpnd).mpr ?_
  intro q
  constructor
  · intro hql
    exact (lookupPlugin_eq_some (hlkps q hql)).1
  · intro hqp
    have hid : q.id ∈ st'.visited := hall q hqp
    rw [hveq] at hid
    obtain ⟨r, hr, hrid⟩ := List.mem_map.mp (List.mem_toFinset.mp hid)
    have h1 : lookupPlugin pkg.plugins r.id = some r := hlkps r hr
    have h2 : lookupPlugin pkg.plugins q.id = some q := lookupPlugin_of_nodup hn hqp
    rw [hrid] at h1
    rw [h1] at h2
    cases h2
    exact hr

/-- Witness for C10 on the linear-chain package. -/
theorem install_order_permutation_witness :
    [simpleDef "a" [], simpleDef "b" ["a"], simpleDef "c" ["a", "b"]].Perm
      chainPkg.plugins :=
  install_order_permutation chainPkg
    [simpleDef "a" [], simpleDef "b" ["a"], simpleDef "c" ["a", "b"]] (by decide) rfl

theorem union_insert_right (s t : Finset String) (id : String) :
    s ∪ insert id t = insert id (s ∪ t) := by
  ext x
  simp only [Finset.mem_union, Finset.mem_insert]
  tauto

/-- Fuel sufficiency: with fuel exceeding the number of ids not yet claimed,
`visit` either succeeds or fails with `CircularDependency` — it never runs
out of fuel, and the claimed-id set only grows and stays inside the
universe. -/
theorem visit_suff_aux (plugins : List PluginDef) : ∀ fuel : Nat,
    (∀ (id : String) (st : VisitState), id ∈ idUniverse plugins →
       st.visited ∪ st.inProgress ⊆ idUniverse plugins →
       (idUniverse plugins).card - (st.visited ∪ st.inProgress).card < fuel →
       (∃ st', visit plugins fuel id st = .ok st' ∧
          st.visited ∪ st.inProgress ⊆ st'.visited ∪ st'.inProgress ∧
          st'.visited ∪ st'.inProgress ⊆ idUniverse plugins) ∨
       (∃ c, visit plugins fuel id st = .error (.CircularDependency c))) ∧
    (∀ (deps : List String) (st : VisitState), (∀ d ∈ deps, d ∈ idUniverse plugins) →
       st.visited ∪ st.inProgress ⊆ idUniverse plugins →
       (idUniverse plugins).card - (st.visited ∪ st.inProgress).card < fuel →
       (∃ st', visitDeps plugins fuel deps st = .ok st' ∧
          st.visited ∪ st.inProgress ⊆ st'.visited ∪ st'.inProgress ∧
          st'.visited ∪ st'.inProgress ⊆ idUniverse plugins) ∨
       (∃ c, visitDeps plugins fuel deps st = .error (.CircularDependency c))) := by
  intro fuel
  induction fuel with
  | zero =>
    constructor
    · intro id st _ _ hslack
      exact absurd hslack (Nat.not_lt_zero _)
    · intro deps st _ _ hslack
      exact absurd hslack (Nat.not_lt_zero _)
  | succ fuel ih =>
    have hvisit : ∀ (id : String) (st : VisitState), id ∈ idUniverse plugins →
        st.visited ∪ st.inProgress ⊆ idUniverse plugins →
        (idUniverse plugins).card - (st.visited ∪ st.inProgress).card < fuel + 1 →
        (∃ st', visit plugins (fuel + 1) id st = .ok st' ∧
           st.visited ∪ st.inProgress ⊆ st'.visited ∪ st'.inProgress ∧
           st'.visited ∪ st'.inProgress ⊆ idUniverse plugins) ∨
        (∃ c, visit plugins (fuel + 1) id st = .error (.CircularDependency c)) := by
      intro id st hid hsub hslack
      by_cases h1 : id ∈ st.visited
      · left
        exact ⟨st, by rw [visit_succ_eq, if_pos h1], subset_rfl, hsub⟩
      · by_cases h2 : id ∈ st.inProgress
        · right
          exact ⟨id, by rw [visit_succ_eq, if_neg h1, if_pos h2]⟩
        · have hidnot : id ∉ st.visited ∪ st.inProgress := by
            simp [h1, h2]
          have hsub1 : insert id (st.visited ∪ st.inProgress) ⊆ idUniverse plugins :=
            Finset.insert_subset_iff.mpr ⟨hid, hsub⟩
          have hcard1 : (insert id (st.visited ∪ st.inProgress)).card =
              (st.visited ∪ st.inProgress).card + 1 :=
            Finset.card_insert_of_not_mem hidnot
          have hle1 : (insert id (st.visited ∪ st.inProgress)).card ≤
              (idUniverse plugins).card := Finset.card_le_card hsub1
          cases hlk : lookupPlugin plugins id with
          | none =>
            left
            refine ⟨⟨st.visited, insert id st.inProgress, st.result⟩,
              by rw [visit_succ_eq, if_neg h1, if_neg h2, hlk], ?_, ?_⟩
            · exact Finset.union_subset_union subset_rfl (Finset.subset_insert _ _)
            · show st.visited ∪ insert id st.inProgress ⊆ idUniverse plugins
              rw [union_insert_right]
              exact hsub1
          | some p =>
            have hdeps : ∀ d ∈ p.depends_on, d ∈ idUniverse plugins := fun d hd =>
              mem_idUniverse_of_dep (lookupPlugin_eq_some hlk).1 hd
            have hsubst1 : (⟨st.visited, insert id st.inProgress, st.result⟩ :
                VisitState).visited ∪ (⟨st.visited, insert id st.inProgress, st.result⟩ :
                VisitState).inProgress ⊆ idUniverse plugins := by
              show st.visited ∪ insert id st.inProgress ⊆ idUniverse plugins
              rw [union_insert_right]
              exact hsub1
            have hslackst1 : (idUniverse plugins).card -
                ((⟨st.visited, insert id st.inProgress, st.result⟩ : VisitState).visited ∪
                 (⟨st.visited, insert id st.inProgress, st.result⟩ :
                  VisitState).inProgress).card < fuel := by
              show (idUniverse plugins).card -
                (st.visited ∪ insert id st.inProgress).card < fuel
              rw [union_insert_right]
              omega
            rcases ih.2 p.depends_on ⟨st.visited, insert id st.inProgress, st.result⟩
                hdeps hsubst1 hslackst1 with ⟨st2, hd2, hmono2, hbound2⟩ | ⟨c, hd2⟩
            · left
              refine ⟨⟨insert id st2.visited, st2.inProgress.erase id, st2.result ++ [p]⟩,
                by rw [visit_succ_eq, if_neg h1, if_neg h2]; simp only [hlk, hd2], ?_, ?_⟩
              · intro x hx
                have hx2 : x ∈ st2.visited ∪ st2.inProgress := by
                  apply hmono2
                  rcases Finset.mem_union.mp hx with hxa | hxb
                  · exact Finset.mem_union_left _ hxa
                  · exact Finset.mem_union_right _ (Finset.mem_insert_of_mem hxb)
                by_cases hxid : x = id
                · exact Finset.mem_union_left _ (hxid ▸ Finset.mem_insert_self _ _)
                · rcases Finset.mem_union.mp hx2 with hxa | hxb
                  · exact Finset.mem_union_left _ (Finset.mem_insert_of_mem hxa)
                  · exact Finset.mem_union_right _ (Finset.mem_erase.mpr ⟨hxid, hxb⟩)
              · intro x hx
                rcases Finset.mem_union.mp hx with hxa | hxb
                · rcases Finset.mem_insert.mp hxa with rfl | hxv
                  · exact hid
                  · exact hbound2 (Finset.mem_union_left _ hxv)
                · exact hbound2 (Finset.mem_union_right _ (Finset.mem_of_mem_erase hxb))
            · right
              exact ⟨c, by rw [visit_succ_eq, if_neg h1, if_neg h2]; simp only [hlk, hd2]⟩
    refine ⟨hvisit, ?_⟩
    intro deps
    induction deps with
    | nil =>
      intro st _ hsub _
      left
      exact ⟨st, visitDeps_nil_eq _ _ _, subset_rfl, hsub⟩
    | cons d ds ihds =>
      intro st hdeps hsub hslack
      rcases hvisit d st (hdeps d (List.mem_cons_self _ _)) hsub hslack with
        ⟨st1, hv, hm1, hb1⟩ | ⟨c, hv⟩
      · have hslack1 : (idUniverse plugins).card -
            (st1.visited ∪ st1.inProgress).card < fuel + 1 := by
          have := Finset.card_le_card hm1
          omega
        rcases ihds st1 (fun x hx => hdeps x (List.mem_cons_of_mem _ hx)) hb1 hslack1 with
          ⟨st2, hd2, hm2, hb2⟩ | ⟨c, hd2⟩
        · left
          exact ⟨st2, by rw [visitDeps_cons_eq]; simp only [hv, hd2], hm1.trans hm2, hb2⟩
        · right
          exact ⟨c, by rw [visitDeps_cons_eq]; simp only [hv, hd2]⟩
      · right
        exact ⟨c, by rw [visitDeps_cons_eq]; simp only [hv]⟩

theorem idUniverse_card_lt_fuelFor (plugins : List PluginDef) :
    (idUniverse plugins).card < fuelFor plugins := by
  have h : ((plugins.map (·.id) ++ plugins.flatMap (·.depends_on)).toFinset).card ≤
      (plugins.map (·.id) ++ plugins.flatMap (·.depends_on)).length :=
    List.toFinset_card_le _
  exact Nat.lt_succ_of_le h

/-- `install_order` always returns either a full list or a
`CircularDependency` error: there is no other failure mode and no partial
result. -/
theorem install_order_shape (pkg : PackageManifest) :
    (∃ l, pkg.install_order = .ok l) ∨
    ∃ c, pkg.install_order = .error (.CircularDependency c) := by
  have hall : ∀ (ps : List PluginDef) (st : VisitState), (∀ p ∈ ps, p ∈ pkg.plugins) →
      st.visited ∪ st.inProgress ⊆ idUniverse pkg.plugins →
      (∃ st', visitAll pkg.plugins (fuelFor pkg.plugins) ps st = .ok st' ∧
         st'.visited ∪ st'.inProgress ⊆ idUniverse pkg.plugins) ∨
      (∃ c, visitAll pkg.plugins (fuelFor pkg.plugins) ps st =
        .error (.CircularDependency c)) := by
    intro ps
    induction ps with
    | nil =>
      intro st _ hsub
      exact .inl ⟨st, rfl, hsub⟩
    | cons p ps ihp =>
      intro st hmem hsub
      have hslack : (idUniverse pkg.plugins).card -
          (st.visited ∪ st.inProgress).card < fuelFor pkg.plugins := by
        have := idUniverse_card_lt_fuelFor pkg.plugins
        omega
      rcases (visit_suff_aux pkg.plugins (fuelFor pkg.plugins)).1 p.id st
          (mem_idUniverse_of_id (hmem p (List.mem_cons_self _ _))) hsub hslack with
        ⟨st1, hv, _, hb1⟩ | ⟨c, hv⟩
      · rcases ihp st1 (fun q hq => hmem q (List.mem_cons_of_mem _ hq)) hb1 with
          ⟨st2, hva, hb2⟩ | ⟨c, hva⟩
        · exact .inl ⟨st2, by simp only [visitAll, hv, hva], hb2⟩
        · exact .inr ⟨c, by simp only [visitAll, hv, hva]⟩
      · exact .inr ⟨c, by simp only [visitAll, hv]⟩
  rcases hall pkg.plugins ⟨∅, ∅, []⟩ (fun _ hp => hp) (by simp) with
    ⟨st', hva, _⟩ | ⟨c, hva⟩
  · exact .inl ⟨st'.result, by unfold PackageManifest.install_order; rw [hva]⟩
  · exact .inr ⟨c, by unfold PackageManifest.install_order; rw [hva]⟩

theorem indexOf_lt_of_mem_take {α : Type} [DecidableEq α] {a : α} {l : List α} {n : Nat}
    (h : a ∈ l.take n) : l.indexOf a < n := by
  induction l generalizing n with
  | nil => simp at h
  | cons x xs ih =>
    cases n with
    | zero => simp at h
    | succ n =>
      rw [List.take_succ_cons] at h
      rcases List.mem_cons.mp h with rfl | hmem
      · simp
      · by_cases hxa : x = a
        · subst hxa
          simp
        · rw [List.indexOf_cons_ne _ hxa]
          exact Nat.succ_lt_succ (ih hmem)

theorem edge_rank_lt {pkg : PackageManifest} {l : List PluginDef}
    (hn : (pkg.plugins.map (·.id)).Nodup) (h : pkg.install_order = .ok l) {a b : String}
    (he : presentEdge pkg.plugins a b) :
    (l.map (·.id)).indexOf b < (l.map (·.id)).indexOf a := by
  obtain ⟨⟨q, hq, hqa, hbdep⟩, hbpres⟩ := he
  obtain ⟨st', hres, hinv, hall⟩ := install_order_ok_state h
  cases hres
  obtain ⟨hveq, hnd, hlkps, hdisj, hord⟩ := hinv
  have haid : a ∈ st'.result.map (·.id) := by
    have hv := hall q hq
    rw [hveq] at hv
    exact hqa ▸ List.mem_toFinset.mp hv
  have hia : (st'.result.map (·.id)).indexOf a < (st'.result.map (·.id)).length :=
    List.indexOf_lt_length.mpr haid
  have hia' : (st'.result.map (·.id)).indexOf a < st'.result.length := by
    simpa using hia
  have hgeta : (st'.result.get ⟨(st'.result.map (·.id)).indexOf a, hia'⟩).id = a := by
    have hg := List.indexOf_get hia
    rw [List.get_eq_getElem, List.getElem_map] at hg
    simpa [List.get_eq_getElem] using hg
  have he_q : st'.result.get ⟨(st'.result.map (·.id)).indexOf a, hia'⟩ = q := by
    have h1 := hlkps _ (st'.result.get_mem ((st'.result.map (·.id)).indexOf a) hia')
    rw [hgeta] at h1
    have h2 : lookupPlugin pkg.plugins a = some q := by
      rw [← hqa]
      exact lookupPlugin_of_nodup hn hq
    rw [h1] at h2
    cases h2
    rfl
  have hbine : b ∈ (st'.result.get ⟨(st'.result.map (·.id)).indexOf a, hia'⟩).depends_on :=
    he_q ▸ hbdep
  have hmem := hord _ hia' b hbine hbpres
  rw [List.map_take] at hmem
  exact indexOf_lt_of_mem_take hmem

theorem transGen_rank_lt {pkg : PackageManifest} {l : List PluginDef}
    (hn : (pkg.plugins.map (·.id)).Nodup) (h : pkg.install_order = .ok l) {x y : String}
    (ht : Relation.TransGen (presentEdge pkg.plugins) x y) :
    (l.map (·.id)).indexOf y < (l.map (·.id)).indexOf x := by
  induction ht with
  | single he => exact edge_rank_lt hn h he
  | tail _ hyz ih => exact lt_trans (edge_rank_lt hn h hyz) ih

/-- C2 counterexample.  First input: duplicate ids let a genuine cycle
(a -> b through the FIRST definition of id a, b -> a) go undetected,
because the id map keeps only the last, dependency-free definition of a —
so `install_order` succeeds even though the claim demands a
`CircularDependency` failure.  Second input: with distinct ids, two
references to the absent id "x" make `install_order` report
`CircularDependency("x")` although "x" is not the id of any plugin, so the
reported id need not lie on any cycle of the package's dependency
relation. -/
theorem install_order_cycle_counterexample :
    dupIdPkg.install_order = .ok [simpleDef "a" [], simpleDef "b" ["a"]] ∧
    presentEdge dupIdPkg.plugins "a" "b" ∧ presentEdge dupIdPkg.plugins "b" "a" ∧
    absentPlusCyclePkg.install_order = .error (.CircularDependency "x") ∧
    (absentPlusCyclePkg.plugins.map (·.id)).contains "x" = false := by
  refine ⟨rfl,
    ⟨⟨simpleDef "a" ["b"], List.mem_cons_self _ _, rfl, by decide⟩, by decide⟩,
    ⟨⟨simpleDef "b" ["a"], List.mem_cons_of_mem _ (List.mem_cons_self _ _), rfl,
      by decide⟩, by decide⟩, rfl, by decide⟩

/-- C2 (amended): for a package with pairwise distinct plugin ids whose
dependency relation (restricted to present ids) contains a cycle,
`install_order` fails with `CircularDependency(id)` for some id — the id at
which the traversal re-entered an in-progress node, which need not lie on
the cycle — and, being an `Except` value, it never returns a partial list;
the embedding is a pure function of the package, which is not mutated. -/
theorem install_order_cycle_errors (pkg : PackageManifest)
    (hn : (pkg.plugins.map (·.id)).Nodup)
    (hcyc : ∃ a, Relation.TransGen (presentEdge pkg.plugins) a a) :
    ∃ id, pkg.install_order = .error (.CircularDependency id) := by
  rcases install_order_shape pkg with ⟨l, hok⟩ | ⟨c, herr⟩
  · exfalso
    obtain ⟨a, ht⟩ := hcyc
    exact lt_irrefl _ (transGen_rank_lt hn hok ht)
  · exact ⟨c, herr⟩

/-- Witness for C2 on the two-plugin cycle package of the repository's
`test_circular_dependency_detection`. -/
theorem install_order_cycle_errors_witness :
    ∃ id, cyclePkg.install_order = .error (.CircularDependency id) := by
  refine install_order_cycle_errors cyclePkg (by decide) ⟨"a", ?_⟩
  have hab : presentEdge cyclePkg.plugins "a" "b" :=
    ⟨⟨simpleDef "a" ["b"], List.mem_cons_self _ _, rfl, by decide⟩, by decide⟩
  have hba : presentEdge cyclePkg.plugins "b" "a" :=
    ⟨⟨simpleDef "b" ["a"], List.mem_cons_of_mem _ (List.mem_cons_self _ _), rfl,
      by decide⟩, by decide⟩
  exact Relation.TransGen.head hab (Relation.TransGen.single hba)

/-- C3 (code bug): in a package whose dependency relation among present ids
is empty (hence acyclic) but where the two plugins both reference the same
absent id "x", `install_order` fails with `CircularDependency("x")` instead
of skipping the unresolvable id: the first visit leaves "x" permanently in
the in-progress set, so the second reference is mistaken for a cycle. -/
theorem install_order_absent_dup_spurious_cycle :
    absentDupPkg.install_order = .error (.CircularDependency "x") ∧
    (absentDupPkg.plugins.map (·.id)).contains "x" = false ∧
    (absentDupPkg.plugins.all fun p => p.depends_on.all fun d => d == "x") = true := by
  exact ⟨rfl, by decide, by decide⟩
